import Mathlib

/-!
Verification of the 2D rocket-flight simulator against its specification.

The development shallowly embeds the flight-physics core of the repository:
* `src/utils/fuelUtils.ts` — children map, stage-blocking test, fuel-source BFS;
* `src/components/Simulation.tsx` (the patched-conic revision, the one the
  specification describes) — the per-substep thrust/fuel pass, the
  patched-conic force helper `getForces`, the surface-collision handling,
  staging and parachute deployment.

Modelling conventions:
* JavaScript numbers are modelled as `ℚ` where the code only adds, multiplies,
  compares, divides (fuel accounting), and as `ℝ` where the code takes square
  roots / transcendental functions (kinematics).  Floating-point rounding is
  out of scope.
* `undefined`-able fields become `Option`; the idiom `p.x || 0` becomes
  `Option.getD · 0`; JavaScript string truthiness (`if (p.parentId)`) is
  `jsTruthy`, which is false for `undefined` and for the empty string.
* The two `while (queue.length > 0)` worklist loops of `fuelUtils.ts` are
  embedded with an explicit iteration budget ("fuel") and return `Option`:
  `none` plays the role of non-termination of the source loop.  For
  `findFuelSources` (whose loop carries a visited set) we prove the budget
  always suffices; `isEngineBlockedByStage` has no visited set and genuinely
  diverges on cyclic part lists, so its embedding stays partial.
* In-place mutation of part objects becomes functional update of the part
  list; parts are addressed by list index (the iteration order of
  `parts.forEach`) or by `instanceId` (the references handed around by
  `findFuelSources`), matching the aliasing of the source for well-formed
  vehicles (distinct `instanceId`s).
-/

namespace RocketSim

/-- `PartType` enum of `src/types.ts`. -/
inductive PartType where
  | COMMAND | TANK | ENGINE | DECOUPLER | NOSE
  | FIN | PAYLOAD | STRUCTURAL | LEG | PARACHUTE
deriving DecidableEq

/-- The `'stack' | 'radial'` union of `AttachNode.type` in `src/types.ts`. -/
inductive NodeType where
  | stack | radial
deriving DecidableEq

/-- `AttachNode` of `src/types.ts`, restricted to the fields the embedded code
reads (`type`; `id` kept for identification).  The geometric fields `x`, `y`
and `allowedTypes` are only used by the editor, which is out of scope. -/
structure AttachNode where
  id : String
  type : NodeType
deriving DecidableEq

/-- `RocketPart` of `src/types.ts`, restricted to the fields read by the
embedded simulation code.  `isThrusting`/`isDeployed` are optional booleans in
TypeScript whose absence is only ever read as falsy, so they are plain `Bool`
here. -/
structure RocketPart where
  instanceId : String
  type : PartType
  nodes : List AttachNode
  parentId : Option String
  fuelCapacity : Option ℚ
  currentFuel : Option ℚ
  thrust : Option ℚ
  burnRate : Option ℚ
  mass : ℚ
  width : ℚ
  isThrusting : Bool
  isDeployed : Bool
deriving DecidableEq

/-- JavaScript truthiness of an optional string: `undefined` and `""` are
falsy (`if (p.parentId)`). -/
def jsTruthy : Option String → Bool
  | none => false
  | some s => decide (s ≠ "")

/-- `p.currentFuel || 0`. -/
def curFuel (p : RocketPart) : ℚ := p.currentFuel.getD 0

/-- `p.fuelCapacity || 0`. -/
def fuelCap (p : RocketPart) : ℚ := p.fuelCapacity.getD 0

/-- `getChildrenMap` of `src/utils/fuelUtils.ts`, as the lookup function the
map denotes: the children of `pid` are the parts whose (truthy) `parentId`
equals `pid`, in part-list order (the order `forEach` pushes them). -/
def getChildrenMap (parts : List RocketPart) (pid : String) : List RocketPart :=
  parts.filter (fun p => jsTruthy p.parentId && decide (p.parentId = some pid))

/-- The stack-node test `curr.nodes.some(n => n.type === 'stack')`. -/
def hasStackNode (p : RocketPart) : Bool :=
  p.nodes.any (fun n => decide (n.type = NodeType.stack))

/-- Loop of `isEngineBlockedByStage` (`src/utils/fuelUtils.ts`, lines 17-27),
with an explicit iteration budget.  The source loop has no visited set, so it
diverges on cyclic `parentId` structures; `none` models that divergence. -/
def blockedAux (parts : List RocketPart) : Nat → List RocketPart → Option Bool
  | _, [] => some false
  | 0, _ :: _ => none
  | fuel + 1, curr :: rest =>
    if decide (curr.type = PartType.DECOUPLER) && hasStackNode curr then
      some true
    else
      blockedAux parts fuel (rest ++ getChildrenMap parts curr.instanceId)

/-- `isEngineBlockedByStage(engine, childrenMap)` of `src/utils/fuelUtils.ts`.
On an acyclic vehicle every part is enqueued at most once, so a budget of
`parts.length + 1` iterations is what the source loop performs. -/
def isEngineBlockedByStage (engine : RocketPart) (parts : List RocketPart) : Option Bool :=
  blockedAux parts (parts.length + 1) [engine]

/-- The fuel-source test `p.type === TANK || (p.fuelCapacity || 0) > 0`. -/
def isTankSource (p : RocketPart) : Bool :=
  decide (p.type = PartType.TANK) || decide (0 < fuelCap p)

/-- The `// UP (Parent)` block of `findFuelSources` (lines 51-66): try to step
from `curr` to its parent, extending queue / visited / sources. -/
def parentStep (allParts : List RocketPart) (curr : RocketPart) (dist : Nat)
    (q : List (RocketPart × Nat)) (v : List String) (s : List (RocketPart × Nat)) :
    List (RocketPart × Nat) × List String × List (RocketPart × Nat) :=
  if jsTruthy curr.parentId then
    match allParts.find? (fun p => decide (some p.instanceId = curr.parentId)) with
    | some parent =>
      if !(decide (curr.type = PartType.DECOUPLER) ||
           decide (parent.type = PartType.DECOUPLER)) &&
         !decide (parent.instanceId ∈ v) then
        (q ++ [(parent, dist + 1)], v ++ [parent.instanceId],
         if isTankSource parent then s ++ [(parent, dist + 1)] else s)
      else (q, v, s)
    | none => (q, v, s)
  else (q, v, s)

/-- The `// DOWN (Children)` `forEach` of `findFuelSources` (lines 68-82). -/
def childLoop (curr : RocketPart) (dist : Nat) :
    List RocketPart → List (RocketPart × Nat) → List String → List (RocketPart × Nat) →
    List (RocketPart × Nat) × List String × List (RocketPart × Nat)
  | [], q, v, s => (q, v, s)
  | child :: cs, q, v, s =>
    if !(decide (curr.type = PartType.DECOUPLER) ||
         decide (child.type = PartType.DECOUPLER)) &&
       !decide (child.instanceId ∈ v) then
      childLoop curr dist cs (q ++ [(child, dist + 1)]) (v ++ [child.instanceId])
        (if isTankSource child then s ++ [(child, dist + 1)] else s)
    else childLoop curr dist cs q v s

/-- The `while (queue.length > 0)` loop of `findFuelSources` (lines 48-83),
with an explicit iteration budget (`none` = budget exhausted; the budget used
below is proved sufficient for every input). -/
def findAux (allParts : List RocketPart) :
    Nat → List (RocketPart × Nat) → List String → List (RocketPart × Nat) →
    Option (List (RocketPart × Nat))
  | _, [], _, sources => some sources
  | 0, _ :: _, _, _ => none
  | fuel + 1, (curr, dist) :: qrest, visited, sources =>
    let up := parentStep allParts curr dist qrest visited sources
    let dn := childLoop curr dist (getChildrenMap allParts curr.instanceId) up.1 up.2.1 up.2.2
    findAux allParts fuel dn.1 dn.2.1 dn.2.2

/-- Iteration budget for `findAux`: the loop visits each distinct part id at
most once, so `2·|parts| + 2` iterations always complete the traversal. -/
def sourcesBound (parts : List RocketPart) : Nat := 2 * parts.length + 2

/-- `findFuelSources(engine, allParts, childrenMap)` of
`src/utils/fuelUtils.ts` (lines 31-86).  The `childrenMap` argument of the
source is the map built from `allParts` by `getChildrenMap`, which is how
every call site produces it; here it is recomputed from `allParts`.  The
`.getD []` default is dead code: `findAux_isSome` below proves the budget
always suffices. -/
def findFuelSources (engine : RocketPart) (allParts : List RocketPart) :
    List (RocketPart × Nat) :=
  let init := if isTankSource engine then [(engine, 0)] else []
  (findAux allParts (sourcesBound allParts) [(engine, 0)] [engine.instanceId] init).getD []

/-! ### The thrust / fuel pass of `updatePhysics`
(`src/components/Simulation.tsx`, lines 1190-1247 of the patched-conic
revision).  Each substep walks `parts.forEach`; engines draw fuel from their
BFS sources, mutating tank fuel in place and accumulating `totalThrust`. -/

/-- Insertion of one key into a descending-sorted list; models
`Array.from(groups.keys()).sort((a, b) => b - a)` (the keys are distinct, so
any descending sort yields the same list). -/
def insertDesc (a : Nat) : List Nat → List Nat
  | [] => [a]
  | b :: l => if b ≤ a then a :: b :: l else b :: insertDesc a l

/-- Descending sort of the distance keys. -/
def sortDescNat : List Nat → List Nat
  | [] => []
  | a :: l => insertDesc a (sortDescNat l)

/-- The group `groups.get(dist)` of the drain loop: the source parts recorded
at distance `d`, in source order. -/
def tierTanks (sources : List (RocketPart × Nat)) (d : Nat) : List RocketPart :=
  (sources.filter (fun x => decide (x.2 = d))).map (fun x => x.1)

/-- `tanks.reduce((sum, t) => sum + (t.currentFuel || 0), 0)`. -/
def groupTotalFuel (tanks : List RocketPart) : ℚ :=
  tanks.foldl (fun acc t => acc + curFuel t) 0

/-- The distinct distance keys of the sources, sorted descending
(`sortedDistances` at line 1215; JS `Map` keys are the distinct distances). -/
def sortedTierList (sources : List (RocketPart × Nat)) : List Nat :=
  sortDescNat (sources.map (fun x => x.2)).dedup

/-- The `for (const dist of sortedDistances)` drain loop (lines 1217-1230) as
the list of per-tank fuel assignments it performs: tier by tier, take
`min(groupTotal, remainingBurn)` and set each tank of the tier to
`max(0, fuel - take * (fuel / groupTotal))`. -/
def drainTiers (sources : List (RocketPart × Nat)) : List Nat → ℚ → List (String × ℚ)
  | [], _ => []
  | d :: rest, remaining =>
    if remaining ≤ 0 then []
    else
      (if 0 < groupTotalFuel (tierTanks sources d) then
        (tierTanks sources d).map (fun t =>
          (t.instanceId, max 0 (curFuel t -
            min (groupTotalFuel (tierTanks sources d)) remaining *
              (curFuel t / groupTotalFuel (tierTanks sources d)))))
      else []) ++
      drainTiers sources rest
        (remaining - min (groupTotalFuel (tierTanks sources d)) remaining)

/-- Commit a list of per-id fuel assignments to the part list (the in-place
`t.currentFuel = …` writes of the source, addressed by `instanceId`). -/
def applyFuelUpdates (updates : List (String × ℚ)) (parts : List RocketPart) :
    List RocketPart :=
  parts.map (fun p =>
    match updates.find? (fun u => decide (u.1 = p.instanceId)) with
    | some u => { p with currentFuel := some u.2 }
    | none => p)

/-- The in-place `p.isThrusting = b` write on the part at index `i`. -/
def setThrusting (parts : List RocketPart) (i : Nat) (b : Bool) : List RocketPart :=
  match parts[i]? with
  | some q => parts.set i { q with isThrusting := b }
  | none => parts

/-- The engine's usable fuel sources (`fuelSources` at line 1205): the BFS
sources holding more than the `0.000001` float-noise threshold. -/
def engineFuelSources (p : RocketPart) (parts : List RocketPart) :
    List (RocketPart × Nat) :=
  (findFuelSources p parts).filter (fun s => decide ((1 : ℚ) / 1000000 < curFuel s.1))

/-- `totalFuelAvailable` (line 1206). -/
def engineFuelAvailable (p : RocketPart) (parts : List RocketPart) : ℚ :=
  (engineFuelSources p parts).foldl (fun sum s => sum + curFuel s.1) 0

/-- One iteration of the `parts.forEach` engine loop (lines 1196-1244) for the
part at index `i` of the current part list, threading the accumulated
`totalThrust`.  `none` models divergence of the `isEngineBlockedByStage`
worklist loop (possible only on cyclic part graphs). -/
def stepEngine (dt throttle : ℚ) (acc : List RocketPart × ℚ) (i : Nat) :
    Option (List RocketPart × ℚ) :=
  let parts := acc.1
  let T := acc.2
  match parts[i]? with
  | none => some acc
  | some p =>
    if p.type = PartType.ENGINE then
      match isEngineBlockedByStage p parts with
      | none => none
      | some true => some (setThrusting parts i false, T)
      | some false =>
        let maxT := p.thrust.getD 0
        if 0 < maxT then
          let requiredFuel := p.burnRate.getD 0 * throttle * dt
          if requiredFuel ≤ engineFuelAvailable p parts ∧ 0 < requiredFuel then
            some (setThrusting (applyFuelUpdates
                (drainTiers (engineFuelSources p parts)
                  (sortedTierList (engineFuelSources p parts)) requiredFuel) parts)
                i true,
              T + maxT * throttle)
          else if 0 < engineFuelAvailable p parts then
            some (setThrusting (applyFuelUpdates
                ((engineFuelSources p parts).map (fun s => (s.1.instanceId, (0 : ℚ))))
                parts) i
                (decide ((1 : ℚ) / 100 <
                  (if 0 < requiredFuel then engineFuelAvailable p parts / requiredFuel
                   else 0))),
              T + maxT * throttle *
                (if 0 < requiredFuel then engineFuelAvailable p parts / requiredFuel
                 else 0))
          else
            some (setThrusting parts i false, T)
        else some acc
    else some (setThrusting parts i false, T)

/-- The engine loop folded over the given part indices. -/
def runEngines (dt throttle : ℚ) : List Nat → List RocketPart × ℚ → Option (List RocketPart × ℚ)
  | [], acc => some acc
  | i :: rest, acc =>
    match stepEngine dt throttle acc i with
    | none => none
    | some acc2 => runEngines dt throttle rest acc2

/-- The whole thrust section of one physics substep (lines 1190-1247):
with throttle above the `0.001` epsilon, run the engine loop over every part
index; otherwise clear every `isThrusting` flag and produce zero thrust. -/
def thrustPass (dt throttle : ℚ) (parts : List RocketPart) :
    Option (List RocketPart × ℚ) :=
  if (1 : ℚ) / 1000 < throttle then
    runEngines dt throttle (List.range parts.length) (parts, 0)
  else
    some (parts.map (fun p => { p with isThrusting := false }), 0)

/-! ### Real-valued kinematics
The remaining simulation state (positions, velocities, forces) uses square
roots and transcendental functions, so it is modelled over `ℝ`. -/

/-- `SASMode` enum of `src/types.ts`. -/
inductive SASMode where
  | MANUAL | STABILITY | PROGRADE | RETROGRADE
deriving DecidableEq

noncomputable section

/-- `Vector2` of `src/types.ts`. -/
structure Vector2 where
  x : ℝ
  y : ℝ

/-- `Debris` of `src/types.ts` (the optional `events` field is never used by
the embedded revision). -/
structure Debris where
  id : String
  parts : List RocketPart
  position : Vector2
  velocity : Vector2
  rotation : ℝ
  angularVelocity : ℝ

/-- The `forces` visualization field of `SimulationState`. -/
structure ForceBreakdown where
  thrust : Vector2
  gravity : Vector2
  drag : Vector2

/-- `SimulationState` of `src/types.ts`: the state mutated by
`updatePhysics`/`handleStage`/`deployParachutes` of `Simulation.tsx`. -/
structure SimState where
  position : Vector2
  velocity : Vector2
  rotation : ℝ
  angularVelocity : ℝ
  throttle : ℚ
  sasMode : SASMode
  altitude : ℝ
  velocityMag : ℝ
  verticalVelocity : ℝ
  horizontalVelocity : ℝ
  acceleration : ℝ
  time : ℝ
  semiMajorAxis : ℝ
  eccentricity : ℝ
  apoapsis : ℝ
  periapsis : ℝ
  parts : List RocketPart
  debris : List Debris
  active : Bool
  finished : Bool
  maxAltitude : ℝ
  events : List String
  forces : ForceBreakdown

/-! Planetary constants (`Simulation.tsx` lines 695-709). -/

def PLANET_RADIUS : ℝ := 600000
def SURFACE_GRAVITY : ℝ := 9.81
def GRAVITATIONAL_PARAM : ℝ := SURFACE_GRAVITY * PLANET_RADIUS * PLANET_RADIUS
def ATMOSPHERE_HEIGHT : ℝ := 70000
def MOON_RADIUS : ℝ := 200000
def MOON_ORBIT_RADIUS : ℝ := 12000000
def MOON_SURFACE_GRAVITY : ℝ := 1.63
def MOON_GRAVITATIONAL_PARAM : ℝ := MOON_SURFACE_GRAVITY * MOON_RADIUS * MOON_RADIUS
def MOON_ORBITAL_PERIOD : ℝ :=
  2 * Real.pi * Real.sqrt (MOON_ORBIT_RADIUS ^ (3 : ℕ) / GRAVITATIONAL_PARAM)

/-- `MOON_SOI_RADIUS = MOON_ORBIT_RADIUS * Math.pow(GM_moon / GM_planet, 2/5)`
(line 707); `Math.pow` on positive reals is `Real.rpow`. -/
def MOON_SOI_RADIUS : ℝ :=
  MOON_ORBIT_RADIUS * (MOON_GRAVITATIONAL_PARAM / GRAVITATIONAL_PARAM) ^ ((2 : ℝ) / 5)

/-- `BASE_TIME_STEP = 0.05`; kept rational because it feeds the exact fuel
arithmetic, and cast to `ℝ` for the kinematics. -/
def BASE_TIME_STEP : ℚ := 1 / 20

/-! Vector math helpers (lines 712-718). -/

def vAdd (a b : Vector2) : Vector2 := ⟨a.x + b.x, a.y + b.y⟩

def vSub (a b : Vector2) : Vector2 := ⟨a.x - b.x, a.y - b.y⟩

def vScale (v : Vector2) (s : ℝ) : Vector2 := ⟨v.x * s, v.y * s⟩

def vMag (v : Vector2) : ℝ := Real.sqrt (v.x * v.x + v.y * v.y)

def vNorm (v : Vector2) : Vector2 :=
  if vMag v = 0 then ⟨0, 0⟩ else vScale v (1 / vMag v)

def vDot (a b : Vector2) : ℝ := a.x * b.x + a.y * b.y

/-- `getMoonPos` (lines 1165-1168). -/
def getMoonPos (t : ℝ) : Vector2 :=
  let angle := t / MOON_ORBITAL_PERIOD * (2 * Real.pi)
  ⟨Real.cos angle * MOON_ORBIT_RADIUS, Real.sin angle * MOON_ORBIT_RADIUS⟩

/-- The planet's gravitational acceleration field (`gVecP`, lines 1256-1260),
a function of the craft position alone. -/
def planetGravityAt (pos : Vector2) : Vector2 :=
  let r2 := pos.x * pos.x + pos.y * pos.y
  let r := Real.sqrt r2
  let fGravityP := -GRAVITATIONAL_PARAM / r2
  ⟨fGravityP * (pos.x / r), fGravityP * (pos.y / r)⟩

/-- The moon's gravitational acceleration field (`gVecM`, lines 1262-1268),
a function of the craft position and the moon position alone. -/
def moonGravityAt (pos mPos : Vector2) : Vector2 :=
  let dMx := pos.x - mPos.x
  let dMy := pos.y - mPos.y
  let rm2 := dMx * dMx + dMy * dMy
  let rm := Real.sqrt rm2
  let fGravityM := -MOON_GRAVITATIONAL_PARAM / rm2
  ⟨fGravityM * (dMx / rm), fGravityM * (dMy / rm)⟩

/-- `getForces(pos, vel, mPos, area)` (lines 1255-1297): environmental forces
under patched conics.  Returns `(gravity, drag)`. -/
def getForces (pos vel mPos : Vector2) (area : ℝ := 10) : Vector2 × Vector2 :=
  let gVecP := planetGravityAt pos
  let gVecM := moonGravityAt pos mPos
  let r := Real.sqrt (pos.x * pos.x + pos.y * pos.y)
  let altitudeSea := r - PLANET_RADIUS
  let density := if altitudeSea < ATMOSPHERE_HEIGHT then 1.225 * Real.exp (-altitudeSea / 7000) else 0
  let speedSq := vDot vel vel
  let speed := Real.sqrt speedSq
  let dragVec :=
    if 0 < density ∧ 0.1 < speed then
      vScale (vNorm vel) (-(0.5 * density * speedSq * area * 0.2))
    else ⟨0, 0⟩
  let distMoon := vMag (vSub pos mPos)
  let gravity := if distMoon < MOON_SOI_RADIUS then gVecM else gVecP
  (gravity, dragVec)

/-! ### Surface collisions (`updatePhysics` step 8, lines 1374-1421). -/

/-- The surface tangent at the clamped position (`{x: -position.y, y: position.x}`
of line 1395, computed after the clamp). -/
def padTangent (st : SimState) : Vector2 :=
  ⟨-(vScale (vNorm st.position) PLANET_RADIUS).y,
   (vScale (vNorm st.position) PLANET_RADIUS).x⟩

/-- The normalised surface tangent (`tNorm`, lines 1396-1397). -/
def padTangentNorm (st : SimState) : Vector2 :=
  if 0 < vMag (padTangent st) then
    vScale (padTangent st) (1 / vMag (padTangent st))
  else ⟨0, 0⟩

/-- The planet-surface collision block (lines 1376-1402).  The source's local
`radialVel`, `pos2`, `tangent`, `tNorm`, `tVel` constants are inlined or
factored into the helper definitions above. -/
def planetCollide (st : SimState) : SimState :=
  if vMag st.position ≤ PLANET_RADIUS then
    if vDot st.velocity (vNorm st.position) < -10 then
      { st with events := st.events ++ ["Crashed into Planet"],
                active := false, finished := true }
    else if vMag st.velocity < 1 then
      if 50 < st.maxAltitude then
        { st with events := st.events ++ ["Landed on Planet"],
                  active := false, finished := true }
      else
        { st with position := vScale (vNorm st.position) PLANET_RADIUS,
                  velocity := ⟨0, 0⟩ }
    else
      if vDot st.velocity (vNorm st.position) < 0 then
        { st with position := vScale (vNorm st.position) PLANET_RADIUS,
                  velocity := vScale (padTangentNorm st)
                    (vDot st.velocity (padTangentNorm st)) }
      else
        { st with position := vScale (vNorm st.position) PLANET_RADIUS }
  else st

/-- The moon-relative offset `{x: position.x - mPos.x, y: position.y - mPos.y}`. -/
def moonOffset (mPos : Vector2) (st : SimState) : Vector2 :=
  ⟨st.position.x - mPos.x, st.position.y - mPos.y⟩

/-- The moon-surface collision block (lines 1404-1421): a non-crash contact
with the moon always registers the landing and terminates. -/
def moonCollide (mPos : Vector2) (st : SimState) : SimState :=
  if vMag (moonOffset mPos st) ≤ MOON_RADIUS then
    if vDot st.velocity (vNorm (moonOffset mPos st)) < -10 then
      { st with events := st.events ++ ["Crashed into Moon"],
                active := false, finished := true }
    else
      { st with events := st.events ++ ["THE EAGLE HAS LANDED!"],
                active := false, finished := true,
                position := vAdd mPos (vScale (vNorm (moonOffset mPos st)) MOON_RADIUS),
                velocity := ⟨0, 0⟩ }
  else st

/-- Step 8 of a physics substep: both surface checks, planet first, then moon
at the end-of-step moon position. -/
def collisionPhase (mPos : Vector2) (st : SimState) : SimState :=
  moonCollide mPos (planetCollide st)

/-! ### Parachutes and staging (`Simulation.tsx` lines 866-881 and 1551-1594). -/

/-- `deployParachutes` (lines 866-881): deploy every packed parachute; if any
was newly deployed, log the event. -/
def deployParachutes (st : SimState) : SimState :=
  let next := st.parts.map (fun p =>
    if p.type = PartType.PARACHUTE ∧ p.isDeployed = false then
      { p with isDeployed := true }
    else p)
  let deployed := (next.zip st.parts).any (fun pr => pr.1.isDeployed && !pr.2.isDeployed)
  { st with parts := next,
            events := if deployed then st.events ++ ["Parachutes Deployed"] else st.events }

/-- `Map.set` on an association list: overwrite in place or append. -/
def mapSet : List (String × Nat) → String → Nat → List (String × Nat)
  | [], k, v => [(k, v)]
  | (k2, v2) :: rest, k, v =>
    if k2 = k then (k, v) :: rest else (k2, v2) :: mapSet rest k v

/-- `Map.get` on an association list. -/
def mapGet (m : List (String × Nat)) (k : String) : Option Nat :=
  (m.find? (fun e => decide (e.1 = k))).map (fun e => e.2)

/-- BFS queue of the stage-assignment traversal, with an iteration budget
(the source loop has no visited set and would diverge on a cyclic tree). -/
def assignStagesAux (parts : List RocketPart) :
    Nat → List (RocketPart × Nat) → List (String × Nat) → Option (List (String × Nat))
  | _, [], m => some m
  | 0, _ :: _, _ => none
  | fuel + 1, (part, stage) :: rest, m =>
    let m2 := mapSet m part.instanceId stage
    let children := parts.filter (fun p => decide (p.parentId = some part.instanceId))
    let newItems := children.map (fun c =>
      (c, if part.type = PartType.DECOUPLER then stage + 1 else stage))
    assignStagesAux parts fuel (rest ++ newItems) m2

/-- Modelled from the spec: `assignStages` of `src/utils/engineeringUtils.ts`
is imported by `Simulation.tsx` and `Builder.tsx` but its definition is not
among the sources (the visible part of `engineeringUtils` only contains
`calculateEngineeringStats`, whose step 1 performs the identical
stage-assignment BFS).  Reconstructed from spec §4.6 and that inline code:
structural staging — the root is stage 0, and a decoupler increments the
stage index of its children; parts are keyed by `instanceId`. -/
def assignStages (parts : List RocketPart) : Option (List (String × Nat)) :=
  match parts.find? (fun p => !jsTruthy p.parentId) with
  | none => some []
  | some root => assignStagesAux parts (parts.length + 1) [(root, 0)] []

/-- `handleStage` (lines 1551-1594).  `debrisId` stands for the random id
`Math.random().toString(36)` generated for the debris object; it is an input
of the model.  `none` models divergence of the stage-assignment BFS. -/
def handleStage (debrisId : String) (st : SimState) : Option SimState :=
  match assignStages st.parts with
  | none => none
  | some stageMap =>
    let maxStage := (stageMap.map (fun e => e.2)).foldl max 0
    if maxStage = 0 then
      some (deployParachutes st)
    else
      let stageParts := st.parts.filter (fun p =>
        decide (mapGet stageMap p.instanceId = some maxStage))
      let stagePartIds := stageParts.map (fun p => p.instanceId)
      let debrisParts := stageParts.map (fun p =>
        if jsTruthy p.parentId && !stagePartIds.contains (p.parentId.getD "") then
          { p with isThrusting := false, parentId := none }
        else
          { p with isThrusting := false })
      let nextParts := st.parts.filter (fun p => !stagePartIds.contains p.instanceId)
      some { st with
              parts := nextParts,
              debris := st.debris ++
                [{ id := debrisId, parts := debrisParts, position := st.position,
                   velocity := st.velocity, rotation := st.rotation,
                   angularVelocity := st.angularVelocity }],
              events := st.events ++ [s!"Stage {maxStage} separated"] }

/-! ### The full physics tick (`updatePhysics`, lines 1149-1497). -/

/-- `Math.atan2(y, x)`. -/
def atan2 (y x : ℝ) : ℝ :=
  if 0 < x then Real.arctan (y / x)
  else if x < 0 then
    (if 0 ≤ y then Real.arctan (y / x) + Real.pi else Real.arctan (y / x) - Real.pi)
  else
    (if 0 < y then Real.pi / 2 else if y < 0 then -(Real.pi / 2) else 0)

/-- Closed form of the two angle-normalisation `while` loops (lines
1334-1335), which bring the heading error into `[-π, π]`. -/
def wrapPi (e : ℝ) : ℝ := e - 2 * Real.pi * ⌊(e + Real.pi) / (2 * Real.pi)⌋

/-- One physics substep (the body of the `for (let s = 0; …)` loop, lines
1172-1421): mass properties, thrust and fuel draw, velocity-Verlet
translation, rotation/SAS control, debris advance, then surface collisions.
`none` models divergence of the stage-blocking worklist inside the thrust
section (possible only on cyclic part graphs). -/
def substep (dt : ℚ) (keyLeft keyRight : Bool) (targetRotation : ℝ)
    (st : SimState) : Option SimState :=
  let moonPosStart := getMoonPos st.time
  let mass : ℚ := st.parts.foldl (fun acc p => acc + (p.mass + curFuel p)) 0
  let dragArea : ℚ := st.parts.foldl (fun acc p =>
    acc + (if p.type = PartType.PARACHUTE ∧ p.isDeployed = true
           then p.width * p.width * 50 else p.width * p.width)) 0
  let momentOfInertia : ℚ :=
    max (st.parts.foldl (fun acc p => acc + (p.mass + curFuel p) * 10) 0) 100
  match thrustPass dt st.throttle st.parts with
  | none => none
  | some tp =>
    let parts2 := tp.1
    let totalThrust : ℝ := (tp.2 : ℝ)
    let thrustDir : Vector2 := ⟨Real.sin st.rotation, -Real.cos st.rotation⟩
    let thrustVec := vScale thrustDir totalThrust
    let forces1 := getForces st.position st.velocity moonPosStart (dragArea : ℝ)
    let totalF1 := vAdd (vAdd forces1.1 forces1.2) thrustVec
    let accel1 := vScale totalF1 (1 / (mass : ℝ))
    let vHalf := vAdd st.velocity (vScale accel1 (0.5 * (dt : ℝ)))
    let nextPos := vAdd st.position (vScale vHalf (dt : ℝ))
    let time2 := st.time + (dt : ℝ)
    let moonPosEnd := getMoonPos time2
    let controlTorque0 : ℝ :=
      (if keyLeft then -10000 else 0) + (if keyRight then 10000 else 0)
    let speed := vMag st.velocity
    let controlTorque : ℝ :=
      if st.sasMode ≠ SASMode.MANUAL then
        let target :=
          if st.sasMode = SASMode.PROGRADE ∧ 1 < speed then
            atan2 st.velocity.y st.velocity.x + Real.pi / 2
          else if st.sasMode = SASMode.RETROGRADE ∧ 1 < speed then
            atan2 st.velocity.y st.velocity.x - Real.pi / 2
          else targetRotation
        let base :=
          if st.sasMode = SASMode.STABILITY then
            controlTorque0 - st.angularVelocity * (momentOfInertia : ℝ) * 2.0
          else controlTorque0
        if st.sasMode ≠ SASMode.STABILITY then
          let err := wrapPi (target - st.rotation)
          base + (err * 20000 - st.angularVelocity * 20000)
        else base
      else controlTorque0 - st.angularVelocity * (momentOfInertia : ℝ) * 0.1
    let alpha := controlTorque / (momentOfInertia : ℝ)
    let angularVelocity2 := st.angularVelocity + alpha * (dt : ℝ)
    let rotation2 := st.rotation + angularVelocity2 * (dt : ℝ)
    let thrustDirNext : Vector2 := ⟨Real.sin rotation2, -Real.cos rotation2⟩
    let thrustVecNext := vScale thrustDirNext totalThrust
    let forces2 := getForces nextPos vHalf moonPosEnd (dragArea : ℝ)
    let totalF2 := vAdd (vAdd forces2.1 forces2.2) thrustVecNext
    let accel2 := vScale totalF2 (1 / (mass : ℝ))
    let velocity2 := vAdd vHalf (vScale accel2 (0.5 * (dt : ℝ)))
    let debris2 := st.debris.map (fun d =>
      let fDebris := getForces d.position d.velocity moonPosEnd 5
      let fTotal := vAdd fDebris.1 fDebris.2
      let a := vScale fTotal (1 / 500)
      let dv := vAdd d.velocity (vScale a (dt : ℝ))
      { d with velocity := dv,
               position := vAdd d.position (vScale dv (dt : ℝ)),
               rotation := d.rotation + d.angularVelocity * (dt : ℝ) })
    let stMid :=
      { st with position := nextPos, velocity := velocity2, rotation := rotation2,
                angularVelocity := angularVelocity2, time := time2, parts := parts2,
                debris := debris2,
                forces := ⟨thrustVecNext, forces2.1, forces2.2⟩ }
    some (collisionPhase moonPosEnd stMid)

/-- The substep loop, `effectiveSteps` iterations. -/
def substepIter (dt : ℚ) (keyLeft keyRight : Bool) (targetRotation : ℝ) :
    Nat → SimState → Option SimState
  | 0, st => some st
  | n + 1, st =>
    match substep dt keyLeft keyRight targetRotation st with
    | none => none
    | some st2 => substepIter dt keyLeft keyRight targetRotation n st2

/-- The post-loop orbital-element and telemetry computation (lines
1424-1494).  The hyperbolic apoapsis is `NaN` in the source; `ℝ` has no
`NaN`, so the junk value `(0 : ℝ) / 0` stands in (no claim reads it). -/
def finalizeTick (st : SimState) : SimState :=
  let moonAngle := st.time / MOON_ORBITAL_PERIOD * (2 * Real.pi)
  let moonPos : Vector2 :=
    ⟨Real.cos moonAngle * MOON_ORBIT_RADIUS, Real.sin moonAngle * MOON_ORBIT_RADIUS⟩
  let distToMoon := vMag ⟨st.position.x - moonPos.x, st.position.y - moonPos.y⟩
  let isInMoonSOI := distToMoon < MOON_SOI_RADIUS
  let orbMu := if isInMoonSOI then MOON_GRAVITATIONAL_PARAM else GRAVITATIONAL_PARAM
  let moonSpeed := 2 * Real.pi * MOON_ORBIT_RADIUS / MOON_ORBITAL_PERIOD
  let moonVelAngle := moonAngle + Real.pi / 2
  let moonVel : Vector2 :=
    ⟨Real.cos moonVelAngle * moonSpeed, Real.sin moonVelAngle * moonSpeed⟩
  let relPos := if isInMoonSOI then vSub st.position moonPos else st.position
  let relVel := if isInMoonSOI then vSub st.velocity moonVel else st.velocity
  let bodyRadius := if isInMoonSOI then MOON_RADIUS else PLANET_RADIUS
  let r := vMag relPos
  let v := vMag relVel
  let vSq := v * v
  let radDir := vNorm relPos
  let vVert := vDot relVel radDir
  let vHoriz := Real.sqrt (max 0 (vSq - vVert * vVert))
  let specificEnergy := vSq / 2 - orbMu / r
  let sma := -orbMu / (2 * specificEnergy)
  let rv := vDot relPos relVel
  let eVec : Vector2 :=
    ⟨((vSq - orbMu / r) * relPos.x - rv * relVel.x) / orbMu,
     ((vSq - orbMu / r) * relPos.y - rv * relVel.y) / orbMu⟩
  let ecc := vMag eVec
  let peri := sma * (1 - ecc) - bodyRadius
  let apo := if ecc < 1 then sma * (1 + ecc) - bodyRadius else (0 : ℝ) / 0
  let distCenter := vMag st.position
  let altitude := distCenter - PLANET_RADIUS
  { st with altitude := altitude,
            velocityMag := vMag st.velocity,
            verticalVelocity := vVert,
            horizontalVelocity := vHoriz,
            semiMajorAxis := sma,
            eccentricity := ecc,
            apoapsis := apo,
            periapsis := peri,
            maxAltitude := max st.maxAltitude altitude }

/-- `updatePhysics` (lines 1149-1497).  Inputs sampled from refs at the top of
the tick: the time-warp factor, the held turn keys, and the SAS target
rotation; `st.throttle`/`st.sasMode` are the synced control state.  Returns
the state unchanged when the simulation is inactive or finished (line 1151).
`none` models divergence of the worklist loops on cyclic part graphs. -/
def updatePhysics (warp : ℚ) (keyLeft keyRight : Bool) (targetRotation : ℝ)
    (st : SimState) : Option SimState :=
  if !st.active || st.finished then some st
  else
    let steps : ℤ := max 1 ⌊warp⌋
    let effectiveSteps : ℤ := min steps 10
    let dt : ℚ := BASE_TIME_STEP * ((steps : ℚ) / (effectiveSteps : ℚ))
    (substepIter dt keyLeft keyRight targetRotation effectiveSteps.toNat st).map
      finalizeTick

end

/-! ### Concrete inputs used by the individual claims. -/

/-- A part record with every optional field absent, used as the base of the
concrete test vehicles (the editor fills the same shape from the catalog). -/
def basePart : RocketPart :=
  { instanceId := "", type := PartType.STRUCTURAL, nodes := [], parentId := none,
    fuelCapacity := none, currentFuel := none, thrust := none, burnRate := none,
    mass := 100, width := 1, isThrusting := false, isDeployed := false }

/-- C1, vehicle `[Tank]-[Decoupler]-[Engine]`: the tank is the root. -/
def tankTDE : RocketPart :=
  { basePart with instanceId := "tank", type := PartType.TANK,
                  fuelCapacity := some 500, currentFuel := some 500 }

def decouplerTDE : RocketPart :=
  { basePart with instanceId := "dec", type := PartType.DECOUPLER,
                  parentId := some "tank",
                  nodes := [⟨"top", NodeType.stack⟩, ⟨"bottom", NodeType.stack⟩] }

/-- C1: the engine has no internal fuel capacity. -/
def engineTDE : RocketPart :=
  { basePart with instanceId := "eng", type := PartType.ENGINE,
                  parentId := some "dec", thrust := some 215000, burnRate := some 80 }

def vehicleTDE : List RocketPart := [tankTDE, decouplerTDE, engineTDE]

/-- C1, vehicle `[Tank]-[Engine]` without a decoupler. -/
def tankTE : RocketPart :=
  { basePart with instanceId := "tank", type := PartType.TANK,
                  fuelCapacity := some 500, currentFuel := some 500 }

def engineTE : RocketPart :=
  { basePart with instanceId := "eng", type := PartType.ENGINE,
                  parentId := some "tank", thrust := some 215000, burnRate := some 80 }

def vehicleTE : List RocketPart := [tankTE, engineTE]

noncomputable section

/-- A simulation state with neutral values, used as the base of the concrete
states below (matching the initial state of `Simulation.tsx` lines 783-807,
sitting at the origin rather than the pad). -/
def baseSimState : SimState :=
  { position := ⟨0, 0⟩, velocity := ⟨0, 0⟩, rotation := 0, angularVelocity := 0,
    throttle := 0, sasMode := SASMode.STABILITY, altitude := 0, velocityMag := 0,
    verticalVelocity := 0, horizontalVelocity := 0, acceleration := 0, time := 0,
    semiMajorAxis := 0, eccentricity := 0, apoapsis := 0, periapsis := 0,
    parts := [], debris := [], active := true, finished := false, maxAltitude := 0,
    events := [], forces := ⟨⟨0, 0⟩, ⟨0, 0⟩, ⟨0, 0⟩⟩ }

/-- C7 witness state: craft on the planet surface, descending at exactly the
crash threshold of 10 m/s (radial velocity `-10`). -/
def c7State : SimState :=
  { baseSimState with position := ⟨0, -600000⟩, velocity := ⟨0, 10⟩ }

/-- C6 counterexample state: craft touching the lunar surface, moving at
5 m/s (above the 1 m/s near-rest threshold) with mild descent rate 4 m/s. -/
def c6State : SimState :=
  { baseSimState with position := ⟨12000000, 200000⟩, velocity := ⟨3, -4⟩,
                      maxAltitude := 100000 }

/-- Moon position used by the C6 counterexample. -/
def c6MoonPos : Vector2 := ⟨12000000, 0⟩

/-- C5 witness tank. -/
def c5Tank : RocketPart :=
  { basePart with instanceId := "w", type := PartType.TANK,
                  fuelCapacity := some 10, currentFuel := some 5 }

/-- C5 witness state: a finished flight, whose update is the guard no-op. -/
def c5State : SimState :=
  { baseSimState with finished := true, parts := [c5Tank] }

/-- C9 counterexample state: a finished flight still carrying a packed
parachute. -/
def c9Parachute : RocketPart :=
  { basePart with instanceId := "chute", type := PartType.PARACHUTE }

def c9State : SimState :=
  { baseSimState with finished := true, active := false,
                      parts := [c9Parachute], events := ["Landed on Planet"] }

/-- C6 witness state: craft on the planet surface at 0.5 m/s after having
flown to 100 m, i.e. a clean slow landing. -/
def c6WitState : SimState :=
  { baseSimState with position := ⟨0, -600000⟩, velocity := ⟨0, 1 / 2⟩,
                      maxAltitude := 100 }

end

/-- The downward subtree relation of C2: `ReachesDown parts p q` holds when
`q` is `p` itself or a descendant of `p` along child edges of the children
map. -/
inductive ReachesDown (parts : List RocketPart) : RocketPart → RocketPart → Prop where
  | refl (p : RocketPart) : ReachesDown parts p p
  | step {p c q : RocketPart} :
      c ∈ getChildrenMap parts p.instanceId →
      ReachesDown parts c q → ReachesDown parts p q

/-- C2 witness vehicle: an engine with a stack decoupler directly beneath it
(the engine is the root, the decoupler its child). -/
def engineBlk : RocketPart :=
  { basePart with instanceId := "eng", type := PartType.ENGINE,
                  thrust := some 215000, burnRate := some 80 }

def decouplerBlk : RocketPart :=
  { basePart with instanceId := "dec", type := PartType.DECOUPLER,
                  parentId := some "eng", nodes := [⟨"top", NodeType.stack⟩] }

def vehicleBlk : List RocketPart := [engineBlk, decouplerBlk]

/-- C3 vehicle: a structural hub (root) carrying two tanks holding 100 and 50
units at equal BFS distance 2 from the engine, and an engine demanding
`burnRate * throttle * dt = 600 * 1 * 0.05 = 30` units per substep. -/
def hubC3 : RocketPart := { basePart with instanceId := "hub" }

def tank100 : RocketPart :=
  { basePart with instanceId := "t1", type := PartType.TANK, parentId := some "hub",
                  fuelCapacity := some 200, currentFuel := some 100 }

def tank50 : RocketPart :=
  { basePart with instanceId := "t2", type := PartType.TANK, parentId := some "hub",
                  fuelCapacity := some 200, currentFuel := some 50 }

def engC3 : RocketPart :=
  { basePart with instanceId := "eng", type := PartType.ENGINE, parentId := some "hub",
                  thrust := some 1000, burnRate := some 600 }

def vehicleC3 : List RocketPart := [hubC3, tank100, tank50, engC3]

/-- C3 witness source list: the two equal-distance tanks. -/
def c3Sources : List (RocketPart × Nat) := [(tank100, 2), (tank50, 2)]

/-- C8 vehicle: an engine demanding `6000 * 1 * 0.05 = 300` units per substep
fed by a tank holding only 2 units — supply ratio `1/150`, below 1%. -/
def tankLow : RocketPart :=
  { basePart with instanceId := "tl", type := PartType.TANK,
                  fuelCapacity := some 200, currentFuel := some 2 }

def engC8 : RocketPart :=
  { basePart with instanceId := "e8", type := PartType.ENGINE, parentId := some "tl",
                  thrust := some 1000, burnRate := some 6000 }

def vehicleC8 : List RocketPart := [tankLow, engC8]

/-- Evolution relation of one part across the fuel pass: every field is
preserved except `currentFuel` (which can only decrease, and stays
nonnegative if it was) and the `isThrusting` flag. -/
def partEvol (q p : RocketPart) : Prop :=
  q.instanceId = p.instanceId ∧ q.type = p.type ∧ q.nodes = p.nodes ∧
  q.parentId = p.parentId ∧ q.fuelCapacity = p.fuelCapacity ∧
  q.thrust = p.thrust ∧ q.burnRate = p.burnRate ∧ q.mass = p.mass ∧
  q.width = p.width ∧ q.isDeployed = p.isDeployed ∧
  curFuel q ≤ curFuel p ∧ (0 ≤ curFuel p → 0 ≤ curFuel q)

/-- Number of parts whose id is not yet in the visited set. -/
def unvisitedCount (parts : List RocketPart) (v : List String) : Nat :=
  (parts.filter (fun p => !decide (p.instanceId ∈ v))).length

/-- Termination measure of the `findFuelSources` worklist loop: every
iteration removes one queue entry and each enqueue spends one fresh visited
id. -/
def bfsMeasure (parts : List RocketPart) (queue : List (RocketPart × Nat))
    (v : List String) : Nat :=
  2 * unvisitedCount parts v + queue.length

/-- Loop invariant of the `findFuelSources` traversal: every recorded source
id is visited, the recorded ids are pairwise distinct, distance 0 is reserved
for the engine itself, and every source is the engine or one of the parts. -/
def sourcesInv (engine : RocketPart) (allParts : List RocketPart)
    (v : List String) (s : List (RocketPart × Nat)) : Prop :=
  (∀ x ∈ s, x.1.instanceId ∈ v) ∧
  (s.map (fun x => x.1.instanceId)).Nodup ∧
  (∀ x ∈ s, x.2 = 0 → x.1 = engine) ∧
  (∀ x ∈ s, x.1 = engine ∨ x.1 ∈ allParts)

/-! ### Theorems. -/

/-! Evaluation helpers for concrete axis-aligned real vectors. -/

theorem vMag_zero_pos {a : ℝ} (h : 0 ≤ a) : vMag ⟨0, a⟩ = a := by
  rw [vMag, show (0 : ℝ) * 0 + a * a = a ^ 2 by ring, Real.sqrt_sq h]

theorem vMag_zero_neg {a : ℝ} (h : 0 ≤ a) : vMag ⟨0, -a⟩ = a := by
  rw [vMag, show (0 : ℝ) * 0 + -a * -a = a ^ 2 by ring, Real.sqrt_sq h]

theorem vNorm_zero_pos {a : ℝ} (h : 0 < a) : vNorm ⟨0, a⟩ = ⟨0, 1⟩ := by
  rw [vNorm, vMag_zero_pos h.le, if_neg (ne_of_gt h), vScale]
  simp only [Vector2.mk.injEq, zero_mul, true_and]
  field_simp

theorem vNorm_zero_neg {a : ℝ} (h : 0 < a) : vNorm ⟨0, -a⟩ = ⟨0, -1⟩ := by
  rw [vNorm, vMag_zero_neg h.le, if_neg (ne_of_gt h), vScale]
  simp only [Vector2.mk.injEq, zero_mul, true_and]
  field_simp

/-- C1: for the three-part vehicle Tank-Decoupler-Engine the engine's
fuel-source search returns the empty list (the engine itself has no internal
fuel capacity), and for the two-part vehicle Tank-Engine it returns exactly
the tank at BFS distance 1. -/
theorem c1_decoupler_isolation :
    findFuelSources engineTDE vehicleTDE = [] ∧
    findFuelSources engineTE vehicleTE = [(tankTE, 1)] := by
  decide

/-- C4: each force evaluation applies exactly one body's gravity — the moon's
field when the craft's distance to the moon is strictly below
`MOON_SOI_RADIUS`, the planet's field otherwise, with no blending or summing;
and the SOI radius is `MOON_ORBIT_RADIUS * (GM_moon / GM_planet) ^ (2/5)`. -/
theorem c4_patched_conic_gravity (pos vel mPos : Vector2) (area : ℝ) :
    (vMag (vSub pos mPos) < MOON_SOI_RADIUS →
      (getForces pos vel mPos area).1 = moonGravityAt pos mPos) ∧
    (¬ vMag (vSub pos mPos) < MOON_SOI_RADIUS →
      (getForces pos vel mPos area).1 = planetGravityAt pos) ∧
    MOON_SOI_RADIUS =
      MOON_ORBIT_RADIUS *
        (MOON_GRAVITATIONAL_PARAM / GRAVITATIONAL_PARAM) ^ ((2 : ℝ) / 5) := by
  refine ⟨fun h => ?_, fun h => ?_, rfl⟩ <;>
    simp only [getForces, h, if_true, if_false, reduceIte]

/-- Witness for C4 at a concrete point inside the moon's sphere of influence
(the craft sitting at the moon's center has distance `0 < MOON_SOI_RADIUS`). -/
theorem c4_patched_conic_gravity_witness :
    (getForces ⟨0, 0⟩ ⟨0, 0⟩ ⟨0, 0⟩ 10).1 = moonGravityAt ⟨0, 0⟩ ⟨0, 0⟩ := by
  refine (c4_patched_conic_gravity ⟨0, 0⟩ ⟨0, 0⟩ ⟨0, 0⟩ 10).1 ?_
  have h0 : vMag (vSub ⟨0, 0⟩ ⟨0, 0⟩) = 0 := by
    simp [vMag, vSub]
  rw [h0]
  unfold MOON_SOI_RADIUS MOON_ORBIT_RADIUS MOON_GRAVITATIONAL_PARAM
    GRAVITATIONAL_PARAM MOON_SURFACE_GRAVITY SURFACE_GRAVITY MOON_RADIUS PLANET_RADIUS
  positivity

/-- C7: at surface contact with either body, a crash event is registered and
the simulation terminated (`active := false`, `finished := true`) exactly when
the radial velocity is strictly below `-10` m/s; contact at exactly `-10`
does not crash (strict inequality). -/
theorem c7_crash_strict_threshold (st : SimState) (mPos : Vector2) :
    (vMag st.position ≤ PLANET_RADIUS →
      (planetCollide st =
          { st with events := st.events ++ ["Crashed into Planet"],
                    active := false, finished := true }
        ↔ vDot st.velocity (vNorm st.position) < -10)) ∧
    (vMag (moonOffset mPos st) ≤ MOON_RADIUS →
      (moonCollide mPos st =
          { st with events := st.events ++ ["Crashed into Moon"],
                    active := false, finished := true }
        ↔ vDot st.velocity (vNorm (moonOffset mPos st)) < -10)) := by
  constructor
  · intro hP
    unfold planetCollide
    rw [if_pos hP]
    by_cases h : vDot st.velocity (vNorm st.position) < -10
    · rw [if_pos h]
      exact iff_of_true rfl h
    · rw [if_neg h]
      refine iff_of_false (fun heq => ?_) h
      revert heq
      split_ifs with h1 h2 h3 <;> intro heq <;>
        have he := congrArg SimState.events heq <;>
        simp at he
  · intro hM
    unfold moonCollide
    rw [if_pos hM]
    by_cases h : vDot st.velocity (vNorm (moonOffset mPos st)) < -10
    · rw [if_pos h]
      exact iff_of_true rfl h
    · rw [if_neg h]
      refine iff_of_false (fun heq => ?_) h
      have he := congrArg SimState.events heq
      simp at he

/-- Witness for C7: a craft resting on the planet surface descending at
exactly 10 m/s (radial velocity exactly `-10`) does not register a crash. -/
theorem c7_crash_strict_threshold_witness :
    ¬ (planetCollide c7State =
        { c7State with events := c7State.events ++ ["Crashed into Planet"],
                       active := false, finished := true }) := by
  intro heq
  have hpos : c7State.position = (⟨0, -600000⟩ : Vector2) := rfl
  have hvel : c7State.velocity = (⟨0, 10⟩ : Vector2) := rfl
  have hP : vMag c7State.position ≤ PLANET_RADIUS := by
    rw [hpos, vMag_zero_neg (by norm_num : (0 : ℝ) ≤ 600000)]
    rw [PLANET_RADIUS]
  have hrv : vDot c7State.velocity (vNorm c7State.position) = -10 := by
    rw [hpos, hvel, vNorm_zero_neg (by norm_num : (0 : ℝ) < 600000), vDot]
    norm_num
  have hlt := ((c7_crash_strict_threshold c7State ⟨0, 0⟩).1 hP).mp heq
  rw [hrv] at hlt
  exact absurd hlt (by norm_num)

/-- C6 counterexample: on the moon, a non-crash contact at 5 m/s — well above
the 1 m/s near-rest threshold — still registers a successful landing and
terminates, where the claim requires the simulation to continue with the
tangential velocity preserved. -/
theorem c6_fast_moon_contact_still_lands :
    vMag (moonOffset c6MoonPos c6State) ≤ MOON_RADIUS ∧
    ¬ vDot c6State.velocity (vNorm (moonOffset c6MoonPos c6State)) < -10 ∧
    ¬ vMag c6State.velocity < 1 ∧
    c6State.finished = false ∧
    (moonCollide c6MoonPos c6State).finished = true ∧
    (moonCollide c6MoonPos c6State).events =
      c6State.events ++ ["THE EAGLE HAS LANDED!"] := by
  have hoff : moonOffset c6MoonPos c6State = (⟨0, 200000⟩ : Vector2) := by
    rw [moonOffset]
    simp only [Vector2.mk.injEq]
    constructor <;> norm_num [c6State, c6MoonPos, baseSimState]
  have hM : vMag (moonOffset c6MoonPos c6State) ≤ MOON_RADIUS := by
    rw [hoff, vMag_zero_pos (by norm_num : (0 : ℝ) ≤ 200000), MOON_RADIUS]
  have hvel : c6State.velocity = (⟨3, -4⟩ : Vector2) := rfl
  have hrv : vDot c6State.velocity (vNorm (moonOffset c6MoonPos c6State)) = -4 := by
    rw [hoff, hvel, vNorm_zero_pos (by norm_num : (0 : ℝ) < 200000), vDot]
    norm_num
  have hspeed : vMag c6State.velocity = 5 := by
    rw [hvel, vMag, show (3 : ℝ) * 3 + -4 * -4 = 5 ^ 2 by norm_num,
      Real.sqrt_sq (by norm_num : (0 : ℝ) ≤ 5)]
  have hres : moonCollide c6MoonPos c6State =
      { c6State with events := c6State.events ++ ["THE EAGLE HAS LANDED!"],
                     active := false, finished := true,
                     position := vAdd c6MoonPos
                       (vScale (vNorm (moonOffset c6MoonPos c6State)) MOON_RADIUS),
                     velocity := ⟨0, 0⟩ } := by
    unfold moonCollide
    rw [if_pos hM, if_neg (by rw [hrv]; norm_num)]
  refine ⟨hM, by rw [hrv]; norm_num, by rw [hspeed]; norm_num, rfl, ?_, ?_⟩ <;>
    rw [hres]

/-- C6 (amended): contact is checked every substep against both bodies (a
non-contacting body's block is the identity).  On the planet, a non-crash
contact registers a successful landing only when speed is below 1 m/s and the
craft previously exceeded 50 m altitude; a slow contact that never flew clamps
to the surface and zeroes velocity without terminating; a faster non-crash
contact clamps position, replaces an inward velocity by its tangential
component, and the simulation continues.  On the moon, any non-crash contact
immediately registers the landing and terminates, regardless of speed and
prior altitude. -/
theorem c6_surface_contact_behavior (st : SimState) (mPos : Vector2) :
    (¬ vMag st.position ≤ PLANET_RADIUS → planetCollide st = st) ∧
    (¬ vMag (moonOffset mPos st) ≤ MOON_RADIUS → moonCollide mPos st = st) ∧
    (vMag st.position ≤ PLANET_RADIUS →
      ¬ vDot st.velocity (vNorm st.position) < -10 →
      ((vMag st.velocity < 1 → 50 < st.maxAltitude →
          planetCollide st =
            { st with events := st.events ++ ["Landed on Planet"],
                      active := false, finished := true }) ∧
       (vMag st.velocity < 1 → ¬ 50 < st.maxAltitude →
          planetCollide st =
            { st with position := vScale (vNorm st.position) PLANET_RADIUS,
                      velocity := ⟨0, 0⟩ }) ∧
       (¬ vMag st.velocity < 1 → vDot st.velocity (vNorm st.position) < 0 →
          planetCollide st =
            { st with position := vScale (vNorm st.position) PLANET_RADIUS,
                      velocity := vScale (padTangentNorm st)
                        (vDot st.velocity (padTangentNorm st)) }) ∧
       (¬ vMag st.velocity < 1 → ¬ vDot st.velocity (vNorm st.position) < 0 →
          planetCollide st =
            { st with position := vScale (vNorm st.position) PLANET_RADIUS }))) ∧
    (vMag (moonOffset mPos st) ≤ MOON_RADIUS →
      ¬ vDot st.velocity (vNorm (moonOffset mPos st)) < -10 →
      moonCollide mPos st =
        { st with events := st.events ++ ["THE EAGLE HAS LANDED!"],
                  active := false, finished := true,
                  position := vAdd mPos (vScale (vNorm (moonOffset mPos st)) MOON_RADIUS),
                  velocity := ⟨0, 0⟩ }) := by
  refine ⟨fun hP => ?_, fun hM => ?_,
          fun hP hrv => ⟨fun h1 h2 => ?_, fun h1 h2 => ?_, fun h1 h2 => ?_, fun h1 h2 => ?_⟩,
          fun hM hrv => ?_⟩
  · unfold planetCollide
    rw [if_neg hP]
  · unfold moonCollide
    rw [if_neg hM]
  · unfold planetCollide
    rw [if_pos hP, if_neg hrv, if_pos h1, if_pos h2]
  · unfold planetCollide
    rw [if_pos hP, if_neg hrv, if_pos h1, if_neg h2]
  · unfold planetCollide
    rw [if_pos hP, if_neg hrv, if_neg h1, if_pos h2]
  · unfold planetCollide
    rw [if_pos hP, if_neg hrv, if_neg h1, if_neg h2]
  · unfold moonCollide
    rw [if_pos hM, if_neg hrv]

/-- Witness for C6 (amended): a craft on the planet surface at 0.5 m/s that
flew to 100 m registers the landing. -/
theorem c6_surface_contact_behavior_witness :
    planetCollide c6WitState =
      { c6WitState with events := c6WitState.events ++ ["Landed on Planet"],
                        active := false, finished := true } := by
  have hpos : c6WitState.position = (⟨0, -600000⟩ : Vector2) := rfl
  have hvel : c6WitState.velocity = (⟨0, 1 / 2⟩ : Vector2) := rfl
  have hP : vMag c6WitState.position ≤ PLANET_RADIUS := by
    rw [hpos, vMag_zero_neg (by norm_num : (0 : ℝ) ≤ 600000), PLANET_RADIUS]
  have hrv : vDot c6WitState.velocity (vNorm c6WitState.position) = -(1 / 2) := by
    rw [hpos, hvel, vNorm_zero_neg (by norm_num : (0 : ℝ) < 600000), vDot]
    norm_num
  have hspeed : vMag c6WitState.velocity = 1 / 2 := by
    rw [hvel, vMag_zero_pos (by norm_num : (0 : ℝ) ≤ 1 / 2)]
  exact ((c6_surface_contact_behavior c6WitState ⟨0, 0⟩).2.2.1 hP
      (by rw [hrv]; norm_num)).1
    (by rw [hspeed]; norm_num)
    (by show (50 : ℝ) < 100; norm_num)

/-- Worklist characterization of the stage-blocking BFS: whenever the loop
terminates, it answers `true` exactly when some part reachable downward from a
queue entry is a decoupler with a stack node. -/
theorem blockedAux_char (parts : List RocketPart) :
    ∀ fuel queue b, blockedAux parts fuel queue = some b →
      (b = true ↔ ∃ x ∈ queue, ∃ p, ReachesDown parts x p ∧
        p.type = PartType.DECOUPLER ∧ hasStackNode p = true) := by
  intro fuel
  induction fuel with
  | zero =>
    intro queue b h
    cases queue with
    | nil =>
      rw [blockedAux] at h
      cases h
      simp
    | cons hd rest => exact absurd h (by rw [blockedAux]; exact Option.noConfusion)
  | succ n ih =>
    intro queue b h
    cases queue with
    | nil =>
      rw [blockedAux] at h
      cases h
      simp
    | cons hd rest =>
      rw [blockedAux] at h
      by_cases hc : (decide (hd.type = PartType.DECOUPLER) && hasStackNode hd) = true
      · rw [if_pos hc] at h
        cases h
        rw [Bool.and_eq_true, decide_eq_true_eq] at hc
        exact iff_of_true rfl
          ⟨hd, List.mem_cons_self hd rest, hd, ReachesDown.refl hd, hc.1, hc.2⟩
      · rw [if_neg hc] at h
        rw [ih _ _ h]
        constructor
        · rintro ⟨x, hx, p, hreach, hdec⟩
          rcases List.mem_append.mp hx with h1 | h2
          · exact ⟨x, List.mem_cons_of_mem _ h1, p, hreach, hdec⟩
          · exact ⟨hd, List.mem_cons_self hd rest, p, ReachesDown.step h2 hreach, hdec⟩
        · rintro ⟨x, hx, p, hreach, hdec⟩
          rcases List.mem_cons.mp hx with rfl | h1
          · cases hreach with
            | refl => simp [hdec.1, hdec.2] at hc
            | step hmem hr => exact ⟨_, List.mem_append_right _ hmem, p, hr, hdec⟩
          · exact ⟨x, List.mem_append_left _ h1, p, hreach, hdec⟩

/-- C2: whenever the stage-blocking BFS terminates, it returns `true` exactly
when the engine's downward subtree contains a decoupler with a stack-type
attachment node; a blocked engine's pass iteration adds zero thrust and clears
its `isThrusting` flag, at every throttle; and at throttle at or below the
`0.001` epsilon the whole pass yields zero thrust with every flag cleared. -/
theorem c2_stage_blocking (engine : RocketPart) (parts : List RocketPart) :
    (∀ b, isEngineBlockedByStage engine parts = some b →
      (b = true ↔ ∃ p, ReachesDown parts engine p ∧
        p.type = PartType.DECOUPLER ∧ hasStackNode p = true)) ∧
    (∀ i T dt throttle, parts[i]? = some engine → engine.type = PartType.ENGINE →
      isEngineBlockedByStage engine parts = some true →
      stepEngine dt throttle (parts, T) i =
        some (parts.set i { engine with isThrusting := false }, T)) ∧
    (∀ dt throttle, throttle ≤ 1 / 1000 →
      thrustPass dt throttle parts =
        some (parts.map (fun p => { p with isThrusting := false }), 0)) := by
  refine ⟨fun b h => ?_, fun i T dt throttle hi htype hblk => ?_, fun dt throttle hth => ?_⟩
  · rw [blockedAux_char parts _ _ b h]
    simp
  · rw [stepEngine]
    simp only [hi, htype, if_true, hblk, reduceIte]
    rw [setThrusting, hi]
    simp [htype]
  · rw [thrustPass, if_neg (not_lt.mpr hth)]

/-- Witness for C2: the engine sitting above a stack decoupler is blocked, and
its pass iteration leaves the accumulated thrust at `0` while clearing the
flag. -/
theorem c2_stage_blocking_witness :
    stepEngine 1 1 (vehicleBlk, 0) 0 =
      some (vehicleBlk.set 0 { engineBlk with isThrusting := false }, 0) :=
  (c2_stage_blocking engineBlk vehicleBlk).2.1 0 0 1 1 (by decide) (by decide) (by decide)

/-! ### Termination and invariants of the `findFuelSources` worklist (C10). -/

theorem filter_length_mono {l : List RocketPart} {p q : RocketPart → Bool}
    (h : ∀ a, p a = true → q a = true) :
    (l.filter p).length ≤ (l.filter q).length := by
  induction l with
  | nil => simp
  | cons a t ih =>
    rw [List.filter_cons, List.filter_cons]
    by_cases hp : p a = true
    · rw [if_pos hp, if_pos (h a hp)]
      simpa using ih
    · rw [if_neg hp]
      by_cases hq : q a = true
      · rw [if_pos hq]
        exact le_trans ih (Nat.le_succ _)
      · rw [if_neg hq]
        exact ih

theorem filter_length_lt {l : List RocketPart} {p q : RocketPart → Bool}
    (h : ∀ a, p a = true → q a = true) {x : RocketPart} (hx : x ∈ l)
    (hqx : q x = true) (hpx : p x = false) :
    (l.filter p).length < (l.filter q).length := by
  induction l with
  | nil => cases hx
  | cons a t ih =>
    rw [List.filter_cons, List.filter_cons]
    rcases List.mem_cons.mp hx with rfl | hxt
    · rw [if_neg (by simp [hpx]), if_pos hqx]
      exact Nat.lt_succ_of_le (filter_length_mono h)
    · by_cases hp : p a = true
      · rw [if_pos hp, if_pos (h a hp)]
        simpa using ih hxt
      · rw [if_neg hp]
        by_cases hq : q a = true
        · rw [if_pos hq]
          exact lt_trans (ih hxt) (Nat.lt_succ_self _)
        · rw [if_neg hq]
          exact ih hxt

theorem unvisitedCount_le (parts : List RocketPart) (v : List String) :
    unvisitedCount parts v ≤ parts.length :=
  List.length_filter_le _ _

theorem unvisitedCount_append_lt (parts : List RocketPart) (v : List String)
    {x : RocketPart} (hx : x ∈ parts) (hnv : x.instanceId ∉ v) :
    unvisitedCount parts (v ++ [x.instanceId]) < unvisitedCount parts v := by
  refine filter_length_lt (fun a ha => ?_) hx (by simpa using hnv) (by simp)
  simp only [Bool.not_eq_true', decide_eq_false_iff_not] at ha ⊢
  exact fun hmem => ha (List.mem_append_left _ hmem)

/-- Case analysis of the parent step: either nothing happens, or a fresh
in-list parent is enqueued, marked visited, and possibly recorded. -/
theorem parentStep_cases (allParts : List RocketPart) (curr : RocketPart) (dist : Nat)
    (q : List (RocketPart × Nat)) (v : List String) (s : List (RocketPart × Nat)) :
    parentStep allParts curr dist q v s = (q, v, s) ∨
    ∃ parent, parent ∈ allParts ∧ parent.instanceId ∉ v ∧
      parentStep allParts curr dist q v s =
        (q ++ [(parent, dist + 1)], v ++ [parent.instanceId],
         if isTankSource parent then s ++ [(parent, dist + 1)] else s) := by
  rw [parentStep]
  by_cases ht : jsTruthy curr.parentId = true
  · rw [if_pos ht]
    cases hf : allParts.find? (fun p => decide (some p.instanceId = curr.parentId)) with
    | none => exact Or.inl rfl
    | some parent =>
      by_cases hcond : (!(decide (curr.type = PartType.DECOUPLER) ||
          decide (parent.type = PartType.DECOUPLER)) &&
          !decide (parent.instanceId ∈ v)) = true
      · have hc2 := hcond
        simp only [Bool.and_eq_true, Bool.not_eq_true', Bool.or_eq_false_iff,
          decide_eq_false_iff_not, Bool.not_eq_true, decide_eq_true_eq] at hc2
        refine Or.inr ⟨parent, List.mem_of_find?_eq_some hf, hc2.2, ?_⟩
        show (if (!(decide (curr.type = PartType.DECOUPLER) ||
          decide (parent.type = PartType.DECOUPLER)) &&
          !decide (parent.instanceId ∈ v)) = true then
            (q ++ [(parent, dist + 1)], v ++ [parent.instanceId],
             if isTankSource parent then s ++ [(parent, dist + 1)] else s)
          else (q, v, s)) = _
        rw [if_pos hcond]
      · show (if (!(decide (curr.type = PartType.DECOUPLER) ||
          decide (parent.type = PartType.DECOUPLER)) &&
          !decide (parent.instanceId ∈ v)) = true then
            (q ++ [(parent, dist + 1)], v ++ [parent.instanceId],
             if isTankSource parent then s ++ [(parent, dist + 1)] else s)
          else (q, v, s)) = (q, v, s) ∨ _
        exact Or.inl (by rw [if_neg hcond])
  · rw [if_neg ht]
    exact Or.inl rfl

theorem parentStep_measure (allParts : List RocketPart) (curr : RocketPart) (dist : Nat)
    (q : List (RocketPart × Nat)) (v : List String) (s : List (RocketPart × Nat)) :
    bfsMeasure allParts (parentStep allParts curr dist q v s).1
      (parentStep allParts curr dist q v s).2.1 ≤ bfsMeasure allParts q v := by
  rcases parentStep_cases allParts curr dist q v s with hcase | ⟨parent, hmem, hnv, hcase⟩
  · rw [hcase]
  · rw [hcase]
    have := unvisitedCount_append_lt allParts v hmem hnv
    simp only [bfsMeasure, List.length_append, List.length_singleton]
    omega

theorem childLoop_measure (allParts : List RocketPart) (curr : RocketPart) (dist : Nat) :
    ∀ (cs : List RocketPart) (q : List (RocketPart × Nat)) (v : List String)
      (s : List (RocketPart × Nat)), (∀ c ∈ cs, c ∈ allParts) →
      bfsMeasure allParts (childLoop curr dist cs q v s).1
        (childLoop curr dist cs q v s).2.1 ≤ bfsMeasure allParts q v := by
  intro cs
  induction cs with
  | nil =>
    intro q v s _
    rw [childLoop]
  | cons c ct ih =>
    intro q v s hcs
    rw [childLoop]
    by_cases hcond : (!(decide (curr.type = PartType.DECOUPLER) ||
        decide (c.type = PartType.DECOUPLER)) &&
        !decide (c.instanceId ∈ v)) = true
    · rw [if_pos hcond]
      refine le_trans (ih _ _ _ (fun d hd => hcs d (List.mem_cons_of_mem _ hd))) ?_
      have hnv : c.instanceId ∉ v := by
        have hc2 := hcond
        simp only [Bool.and_eq_true, Bool.not_eq_true',
          decide_eq_false_iff_not] at hc2
        exact hc2.2
      have := unvisitedCount_append_lt allParts v (hcs c (List.mem_cons_self _ _)) hnv
      simp only [bfsMeasure, List.length_append, List.length_singleton]
      omega
    · rw [if_neg hcond]
      exact ih _ _ _ (fun d hd => hcs d (List.mem_cons_of_mem _ hd))

theorem mem_getChildrenMap {parts : List RocketPart} {pid : String} {c : RocketPart}
    (hc : c ∈ getChildrenMap parts pid) : c ∈ parts := by
  rw [getChildrenMap] at hc
  exact (List.mem_filter.mp hc).1

/-- The iteration budget never runs out when it dominates the measure. -/
theorem findAux_isSome (allParts : List RocketPart) :
    ∀ (fuel : Nat) (queue : List (RocketPart × Nat)) (v : List String)
      (s : List (RocketPart × Nat)), bfsMeasure allParts queue v < fuel →
      (findAux allParts fuel queue v s).isSome = true := by
  intro fuel
  induction fuel with
  | zero => intro queue v s h; exact absurd h (Nat.not_lt_zero _)
  | succ n ih =>
    intro queue v s h
    cases queue with
    | nil => simp [findAux]
    | cons hd rest =>
      obtain ⟨curr, dist⟩ := hd
      simp only [findAux]
      apply ih
      have h1 := childLoop_measure allParts curr dist
        (getChildrenMap allParts curr.instanceId)
        (parentStep allParts curr dist rest v s).1
        (parentStep allParts curr dist rest v s).2.1
        (parentStep allParts curr dist rest v s).2.2
        (fun c hc => mem_getChildrenMap hc)
      have h2 := parentStep_measure allParts curr dist rest v s
      have h3 : bfsMeasure allParts ((curr, dist) :: rest) v =
          bfsMeasure allParts rest v + 1 := by
        simp [bfsMeasure, List.length_cons]
        omega
      omega

theorem sourcesInv_extend (engine : RocketPart) (allParts : List RocketPart)
    {v : List String} {s : List (RocketPart × Nat)} (x : RocketPart) (d : Nat)
    (h : sourcesInv engine allParts v s) (hx : x ∈ allParts)
    (hnv : x.instanceId ∉ v) :
    sourcesInv engine allParts (v ++ [x.instanceId])
      (if isTankSource x then s ++ [(x, d + 1)] else s) := by
  obtain ⟨h1, h2, h3, h4⟩ := h
  by_cases htank : isTankSource x = true
  · rw [if_pos htank]
    refine ⟨?_, ?_, ?_, ?_⟩
    · intro y hy
      rcases List.mem_append.mp hy with hy | hy
      · exact List.mem_append_left _ (h1 y hy)
      · rw [List.mem_singleton.mp hy]
        exact List.mem_append_right _ (List.mem_singleton_self _)
    · rw [List.map_append, List.nodup_append]
      refine ⟨h2, List.nodup_singleton _, ?_⟩
      intro a ha hb
      rcases List.mem_map.mp ha with ⟨y, hy, rfl⟩
      rw [List.map_singleton, List.mem_singleton] at hb
      exact hnv (hb ▸ h1 y hy)
    · intro y hy h0
      rcases List.mem_append.mp hy with hy | hy
      · exact h3 y hy h0
      · rw [List.mem_singleton.mp hy] at h0
        exact absurd h0 (Nat.succ_ne_zero d)
    · intro y hy
      rcases List.mem_append.mp hy with hy | hy
      · exact h4 y hy
      · rw [List.mem_singleton.mp hy]
        exact Or.inr hx
  · rw [if_neg htank]
    exact ⟨fun y hy => List.mem_append_left _ (h1 y hy), h2, h3, h4⟩

theorem parentStep_inv (engine : RocketPart) (allParts : List RocketPart)
    (curr : RocketPart) (dist : Nat) (q : List (RocketPart × Nat))
    (v : List String) (s : List (RocketPart × Nat))
    (h : sourcesInv engine allParts v s) :
    sourcesInv engine allParts (parentStep allParts curr dist q v s).2.1
      (parentStep allParts curr dist q v s).2.2 := by
  rcases parentStep_cases allParts curr dist q v s with hcase | ⟨parent, hmem, hnv, hcase⟩
  · rw [hcase]
    exact h
  · rw [hcase]
    exact sourcesInv_extend engine allParts parent dist h hmem hnv

theorem childLoop_inv (engine : RocketPart) (allParts : List RocketPart)
    (curr : RocketPart) (dist : Nat) :
    ∀ (cs : List RocketPart) (q : List (RocketPart × Nat)) (v : List String)
      (s : List (RocketPart × Nat)), (∀ c ∈ cs, c ∈ allParts) →
      sourcesInv engine allParts v s →
      sourcesInv engine allParts (childLoop curr dist cs q v s).2.1
        (childLoop curr dist cs q v s).2.2 := by
  intro cs
  induction cs with
  | nil =>
    intro q v s _ h
    rw [childLoop]
    exact h
  | cons c ct ih =>
    intro q v s hcs h
    rw [childLoop]
    by_cases hcond : (!(decide (curr.type = PartType.DECOUPLER) ||
        decide (c.type = PartType.DECOUPLER)) &&
        !decide (c.instanceId ∈ v)) = true
    · rw [if_pos hcond]
      have hnv : c.instanceId ∉ v := by
        have hc2 := hcond
        simp only [Bool.and_eq_true, Bool.not_eq_true',
          decide_eq_false_iff_not] at hc2
        exact hc2.2
      exact ih _ _ _ (fun d hd => hcs d (List.mem_cons_of_mem _ hd))
        (sourcesInv_extend engine allParts c dist h
          (hcs c (List.mem_cons_self _ _)) hnv)
    · rw [if_neg hcond]
      exact ih _ _ _ (fun d hd => hcs d (List.mem_cons_of_mem _ hd)) h

theorem findAux_inv (engine : RocketPart) (allParts : List RocketPart) :
    ∀ (fuel : Nat) (queue : List (RocketPart × Nat)) (v : List String)
      (s out : List (RocketPart × Nat)),
      findAux allParts fuel queue v s = some out →
      sourcesInv engine allParts v s →
      ∃ v2, sourcesInv engine allParts v2 out := by
  intro fuel
  induction fuel with
  | zero =>
    intro queue v s out h hinv
    cases queue with
    | nil =>
      rw [findAux] at h
      cases h
      exact ⟨v, hinv⟩
    | cons hd rest => exact absurd h (by rw [findAux]; exact Option.noConfusion)
  | succ n ih =>
    intro queue v s out h hinv
    cases queue with
    | nil =>
      rw [findAux] at h
      cases h
      exact ⟨v, hinv⟩
    | cons hd rest =>
      obtain ⟨curr, dist⟩ := hd
      rw [findAux] at h
      exact ih _ _ _ _ h
        (childLoop_inv engine allParts curr dist _ _ _ _
          (fun c hc => mem_getChildrenMap hc)
          (parentStep_inv engine allParts curr dist rest v s hinv))

/-- The source-list facts shared by C10 and the fuel-accounting claims:
the iteration budget of `findFuelSources` always suffices, and the result
satisfies the source invariant for some visited set. -/
theorem findFuelSources_spec (engine : RocketPart) (parts : List RocketPart) :
    (findAux parts (sourcesBound parts) [(engine, 0)] [engine.instanceId]
        (if isTankSource engine then [(engine, 0)] else [])).isSome = true ∧
    ∃ v2, sourcesInv engine parts v2 (findFuelSources engine parts) := by
  have hb : bfsMeasure parts [(engine, 0)] [engine.instanceId] < sourcesBound parts := by
    have := unvisitedCount_le parts [engine.instanceId]
    simp only [bfsMeasure, sourcesBound, List.length_singleton]
    omega
  have hsome := findAux_isSome parts (sourcesBound parts) [(engine, 0)]
    [engine.instanceId] (if isTankSource engine then [(engine, 0)] else []) hb
  obtain ⟨out, hout⟩ := Option.isSome_iff_exists.mp hsome
  have hinv0 : sourcesInv engine parts [engine.instanceId]
      (if isTankSource engine then [(engine, 0)] else []) := by
    by_cases ht : isTankSource engine = true
    · rw [if_pos ht]
      refine ⟨?_, by simp, ?_, ?_⟩
      · intro y hy
        rw [List.mem_singleton.mp hy]
        exact List.mem_singleton_self _
      · intro y hy _
        rw [List.mem_singleton.mp hy]
      · intro y hy
        rw [List.mem_singleton.mp hy]
        exact Or.inl rfl
    · rw [if_neg ht]
      exact ⟨by simp, by simp, by simp, by simp⟩
  refine ⟨hsome, ?_⟩
  have heq : findFuelSources engine parts = out := by
    rw [findFuelSources]
    simp only [hout, Option.getD_some]
  rw [heq]
  exact findAux_inv engine parts _ _ _ _ _ hout hinv0

/-- C10: for every engine and every finite part list — cyclic or dangling
`parentId` links included, since `parts` is arbitrary — the `findFuelSources`
worklist completes within its iteration budget (the loop terminates), the
returned sources carry pairwise-distinct part instances (distinct
`instanceId`s), the engine itself is the only possible distance-0 entry, and
every other source sits at distance at least 1. -/
theorem c10_fuel_search_termination (engine : RocketPart) (parts : List RocketPart) :
    (findAux parts (sourcesBound parts) [(engine, 0)] [engine.instanceId]
        (if isTankSource engine then [(engine, 0)] else [])).isSome = true ∧
    ((findFuelSources engine parts).map (fun x => x.1.instanceId)).Nodup ∧
    (∀ x ∈ findFuelSources engine parts, x.2 = 0 → x.1 = engine) ∧
    (∀ x ∈ findFuelSources engine parts, x.1 ≠ engine → 1 ≤ x.2) := by
  obtain ⟨hsome, v2, _, h2, h3, _⟩ := findFuelSources_spec engine parts
  refine ⟨hsome, h2, h3, fun x hx hne => ?_⟩
  rcases Nat.eq_zero_or_pos x.2 with h0 | h0
  · exact absurd (h3 x hx h0) hne
  · exact h0

/-- Witness for C10: the tank found by the two-part vehicle's search is not
the engine and indeed sits at distance at least 1. -/
theorem c10_fuel_search_termination_witness :
    1 ≤ ((tankTE, 1) : RocketPart × Nat).2 :=
  (c10_fuel_search_termination engineTE vehicleTE).2.2.2 (tankTE, 1)
    (by decide) (by decide)

/-! ### Drain ordering and proportionality (C3). -/

theorem mem_insertDesc {a c : Nat} : ∀ {l : List Nat}, c ∈ insertDesc a l ↔ c = a ∨ c ∈ l := by
  intro l
  induction l with
  | nil => simp [insertDesc]
  | cons b t ih =>
    rw [insertDesc]
    by_cases hba : b ≤ a
    · rw [if_pos hba]
      simp [List.mem_cons]
    · rw [if_neg hba]
      simp only [List.mem_cons, ih]
      tauto

theorem sorted_insertDesc {a : Nat} {l : List Nat} (h : List.Sorted (· ≥ ·) l) :
    List.Sorted (· ≥ ·) (insertDesc a l) := by
  induction l with
  | nil => simp [insertDesc]
  | cons b t ih =>
    rw [insertDesc]
    by_cases hba : b ≤ a
    · rw [if_pos hba]
      refine List.sorted_cons.mpr ⟨?_, h⟩
      intro c hc
      rcases List.mem_cons.mp hc with rfl | hct
      · exact hba
      · exact le_trans ((List.sorted_cons.mp h).1 c hct) hba
    · rw [if_neg hba]
      refine List.sorted_cons.mpr ⟨?_, ih (List.sorted_cons.mp h).2⟩
      intro c hc
      rcases mem_insertDesc.mp hc with rfl | hct
      · exact le_of_not_le hba
      · exact (List.sorted_cons.mp h).1 c hct

theorem sortDescNat_sorted : ∀ l : List Nat, List.Sorted (· ≥ ·) (sortDescNat l)
  | [] => by rw [sortDescNat]; exact List.sorted_nil
  | a :: t => by rw [sortDescNat]; exact sorted_insertDesc (sortDescNat_sorted t)

theorem mem_sortDescNat {c : Nat} : ∀ {l : List Nat}, c ∈ sortDescNat l ↔ c ∈ l := by
  intro l
  induction l with
  | nil => rw [sortDescNat]
  | cons a t ih =>
    rw [sortDescNat]
    simp only [mem_insertDesc, ih, List.mem_cons]

theorem drainTiers_nonpos (sources : List (RocketPart × Nat)) (dists : List Nat)
    {remaining : ℚ} (h : remaining ≤ 0) :
    drainTiers sources dists remaining = [] := by
  cases dists with
  | nil => rw [drainTiers]
  | cons d rest => rw [drainTiers, if_pos h]

theorem foldl_add_map {α : Type} (f : α → ℚ) : ∀ (l : List α) (a : ℚ),
    l.foldl (fun acc t => acc + f t) a = a + (l.map f).sum := by
  intro l
  induction l with
  | nil => intro a; simp
  | cons x t ih =>
    intro a
    rw [List.foldl_cons, ih, List.map_cons, List.sum_cons]
    ring

theorem groupTotalFuel_eq_sum (tanks : List RocketPart) :
    groupTotalFuel tanks = (tanks.map curFuel).sum := by
  rw [groupTotalFuel, foldl_add_map, zero_add]

theorem mem_tierTanks {sources : List (RocketPart × Nat)} {d : Nat} {t : RocketPart}
    (h : t ∈ tierTanks sources d) : ∃ x ∈ sources, x.1 = t ∧ x.2 = d := by
  rw [tierTanks] at h
  rcases List.mem_map.mp h with ⟨x, hx, rfl⟩
  have hx2 := List.mem_filter.mp hx
  exact ⟨x, hx2.1, rfl, by simpa using hx2.2⟩

theorem groupTotalFuel_tier_nonneg {sources : List (RocketPart × Nat)} {d : Nat}
    (hf : ∀ x ∈ sources, 0 ≤ curFuel x.1) :
    0 ≤ groupTotalFuel (tierTanks sources d) := by
  rw [groupTotalFuel_eq_sum]
  refine List.sum_nonneg ?_
  intro a ha
  rcases List.mem_map.mp ha with ⟨t, ht, rfl⟩
  rcases mem_tierTanks ht with ⟨x, hx, rfl, _⟩
  exact hf x hx

/-- C3: the fuel-draw groups sources by BFS distance and processes the
distinct distances in descending order (the tier list is sorted descending
and carries exactly the source distances); when the demand fits inside the
farthest tier, only that tier is drained, each of its tanks losing
`take * fuel / groupTotal`; within a tier the assignment preserves the ratio
of any two tanks' fuel; and concretely, two tanks at equal distance holding
100 and 50 under a combined demand of 30 end at 80 and 40 (the engine
thrusting at full power). -/
theorem c3_drain_order_proportional :
    (∀ sources : List (RocketPart × Nat),
      List.Sorted (· ≥ ·) (sortedTierList sources) ∧
      ∀ d, d ∈ sortedTierList sources ↔ d ∈ sources.map (fun x => x.2)) ∧
    (∀ (sources : List (RocketPart × Nat)) (dmax : Nat) (rest : List Nat) (required : ℚ),
      sortedTierList sources = dmax :: rest → 0 < required →
      required ≤ groupTotalFuel (tierTanks sources dmax) →
      drainTiers sources (sortedTierList sources) required =
        (tierTanks sources dmax).map (fun t =>
          (t.instanceId, max 0 (curFuel t -
            required * (curFuel t / groupTotalFuel (tierTanks sources dmax)))))) ∧
    (∀ (sources : List (RocketPart × Nat)) (d : Nat) (required : ℚ) (t1 t2 : RocketPart),
      t1 ∈ tierTanks sources d → t2 ∈ tierTanks sources d →
      (∀ x ∈ sources, 0 ≤ curFuel x.1) →
      0 ≤ required → required ≤ groupTotalFuel (tierTanks sources d) →
      max 0 (curFuel t1 - required * (curFuel t1 / groupTotalFuel (tierTanks sources d))) *
          curFuel t2 =
        max 0 (curFuel t2 - required * (curFuel t2 / groupTotalFuel (tierTanks sources d))) *
          curFuel t1) ∧
    thrustPass (1 / 20) 1 vehicleC3 =
      some ([{ hubC3 with isThrusting := false },
             { tank100 with currentFuel := some 80 },
             { tank50 with currentFuel := some 40 },
             { engC3 with isThrusting := true }], 1000) := by
  refine ⟨fun sources => ⟨sortDescNat_sorted _, fun d => ?_⟩,
          fun sources dmax rest required hlist h0 hle => ?_,
          fun sources d required t1 t2 ht1 ht2 hf h0 hle => ?_, ?_⟩
  · rw [sortedTierList, mem_sortDescNat, List.mem_dedup]
  · rw [hlist, drainTiers, if_neg (not_le.mpr h0), min_eq_right hle,
      if_pos (lt_of_lt_of_le h0 hle), sub_self,
      drainTiers_nonpos sources rest (le_refl 0), List.append_nil]
  · have hf1 : 0 ≤ curFuel t1 := by
      rcases mem_tierTanks ht1 with ⟨x, hx, rfl, _⟩
      exact hf x hx
    have hf2 : 0 ≤ curFuel t2 := by
      rcases mem_tierTanks ht2 with ⟨x, hx, rfl, _⟩
      exact hf x hx
    rcases eq_or_lt_of_le (groupTotalFuel_tier_nonneg hf) with hT | hT
    · have hr0 : required = 0 := le_antisymm (by rw [← hT] at hle; exact hle) h0
      rw [hr0]
      simp only [zero_mul, sub_zero]
      rw [max_eq_right hf1, max_eq_right hf2, mul_comm]
    · have key : ∀ f : ℚ, 0 ≤ f →
          max 0 (f - required * (f / groupTotalFuel (tierTanks sources d))) =
            f * (groupTotalFuel (tierTanks sources d) - required) /
              groupTotalFuel (tierTanks sources d) := by
        intro f hff
        have hq : f - required * (f / groupTotalFuel (tierTanks sources d)) =
            f * (groupTotalFuel (tierTanks sources d) - required) /
              groupTotalFuel (tierTanks sources d) := by
          field_simp
          ring
        rw [hq, max_eq_right]
        exact div_nonneg (mul_nonneg hff (sub_nonneg.mpr hle)) (le_of_lt hT)
      rw [key _ hf1, key _ hf2]
      field_simp
      ring
  · norm_num +decide [thrustPass, runEngines, stepEngine, isEngineBlockedByStage,
      engineFuelSources, engineFuelAvailable,
      blockedAux, getChildrenMap, findFuelSources, findAux, parentStep, childLoop,
      sourcesBound, jsTruthy, hasStackNode, isTankSource, curFuel, fuelCap, drainTiers,
      sortedTierList, sortDescNat, insertDesc, tierTanks, groupTotalFuel,
      applyFuelUpdates, setThrusting, vehicleC3, hubC3, tank100, tank50, engC3,
      basePart, List.range, List.range.loop]

/-- Witness for C3: draining the two equal-distance tanks (100 and 50 units)
by a demand of 30 yields exactly the assignments 80 and 40. -/
theorem c3_drain_order_proportional_witness :
    drainTiers c3Sources (sortedTierList c3Sources) 30 = [("t1", 80), ("t2", 40)] := by
  have h := c3_drain_order_proportional.2.1 c3Sources 2 [] 30
    (by norm_num +decide [sortedTierList, sortDescNat, insertDesc, c3Sources,
      tank100, tank50, basePart])
    (by norm_num)
    (by norm_num +decide [groupTotalFuel, tierTanks, curFuel, c3Sources,
      tank100, tank50, basePart])
  rw [h]
  norm_num +decide [tierTanks, groupTotalFuel, curFuel, c3Sources,
    tank100, tank50, basePart]

/-- C8: a non-blocked engine whose reachable fuel is positive but below its
demand `burnRate * throttle * dt` zeroes its sources and contributes exactly
`maxThrust * throttle * (fuelObtained / fuelDemanded)` to the total thrust,
with `isThrusting` set to `ratio > 0.01`; in particular a supply ratio below
1% clears the flag (zero visible thrust — the flag drives the exhaust
rendering, while the fractional thrust term is still accumulated). -/
theorem c8_supply_ratio_thrust (parts : List RocketPart) (i : Nat) (p : RocketPart)
    (dt throttle T : ℚ)
    (hi : parts[i]? = some p) (htype : p.type = PartType.ENGINE)
    (hblk : isEngineBlockedByStage p parts = some false)
    (hmaxT : 0 < p.thrust.getD 0)
    (hpos : 0 < engineFuelAvailable p parts)
    (hlt : engineFuelAvailable p parts < p.burnRate.getD 0 * throttle * dt) :
    stepEngine dt throttle (parts, T) i =
      some (setThrusting (applyFuelUpdates
          ((engineFuelSources p parts).map (fun s => (s.1.instanceId, (0 : ℚ)))) parts) i
          (decide ((1 : ℚ) / 100 <
            engineFuelAvailable p parts / (p.burnRate.getD 0 * throttle * dt))),
        T + p.thrust.getD 0 * throttle *
          (engineFuelAvailable p parts / (p.burnRate.getD 0 * throttle * dt))) ∧
    (engineFuelAvailable p parts / (p.burnRate.getD 0 * throttle * dt) < 1 / 100 →
      decide ((1 : ℚ) / 100 <
        engineFuelAvailable p parts / (p.burnRate.getD 0 * throttle * dt)) = false) := by
  have hreq : 0 < p.burnRate.getD 0 * throttle * dt := lt_trans hpos hlt
  constructor
  · rw [stepEngine]
    simp only [hi, htype, if_true, hblk, reduceIte]
    rw [if_pos hmaxT]
    rw [if_neg (fun hc => absurd hc.1 (not_le.mpr hlt))]
    rw [if_pos hpos, if_pos hreq]
  · intro h
    exact decide_eq_false (not_lt.mpr (le_of_lt h))

/-- Witness for C8: the concrete engine with supply ratio `2/300 = 1/150`
yields `isThrusting = false`. -/
theorem c8_supply_ratio_thrust_witness :
    decide ((1 : ℚ) / 100 < engineFuelAvailable engC8 vehicleC8 /
      (engC8.burnRate.getD 0 * 1 * (1 / 20))) = false := by
  have havail : engineFuelAvailable engC8 vehicleC8 = 2 := by
    norm_num +decide [engineFuelAvailable, engineFuelSources, findFuelSources, findAux,
      parentStep, childLoop, sourcesBound, getChildrenMap, jsTruthy, isTankSource,
      curFuel, fuelCap, vehicleC8, tankLow, engC8, basePart]
  exact (c8_supply_ratio_thrust vehicleC8 1 engC8 (1 / 20) 1 0 (by decide) rfl
      (by decide) (by norm_num [engC8, basePart])
      (by rw [havail]; norm_num)
      (by rw [havail]; norm_num [engC8, basePart])).2
    (by rw [havail]; norm_num [engC8, basePart])

/-! ### Fuel conservation through the pass (C5). -/

theorem partEvol_refl (p : RocketPart) : partEvol p p :=
  ⟨rfl, rfl, rfl, rfl, rfl, rfl, rfl, rfl, rfl, rfl, le_refl _, fun h => h⟩

theorem partEvol_trans {a b c : RocketPart} (h1 : partEvol a b) (h2 : partEvol b c) :
    partEvol a c := by
  obtain ⟨e1, e2, e3, e4, e5, e6, e7, e8, e9, e10, hle, hnn⟩ := h1
  obtain ⟨f1, f2, f3, f4, f5, f6, f7, f8, f9, f10, gle, gnn⟩ := h2
  exact ⟨e1.trans f1, e2.trans f2, e3.trans f3, e4.trans f4, e5.trans f5,
    e6.trans f6, e7.trans f7, e8.trans f8, e9.trans f9, e10.trans f10,
    le_trans hle gle, fun h => hnn (gnn h)⟩

theorem partEvol_flag (p : RocketPart) (b : Bool) :
    partEvol { p with isThrusting := b } p :=
  ⟨rfl, rfl, rfl, rfl, rfl, rfl, rfl, rfl, rfl, rfl, le_refl _, fun h => h⟩

theorem evol_refl (l : List RocketPart) : List.Forall₂ partEvol l l :=
  List.forall₂_same.mpr (fun p _ => partEvol_refl p)

theorem evol_trans : ∀ {a b c : List RocketPart},
    List.Forall₂ partEvol a b → List.Forall₂ partEvol b c →
    List.Forall₂ partEvol a c := by
  intro a
  induction a with
  | nil =>
    intro b c h1 h2
    cases h1
    cases h2
    exact List.Forall₂.nil
  | cons x t ih =>
    intro b c h1 h2
    cases h1 with
    | cons hx ht =>
      cases h2 with
      | cons hy hu => exact List.Forall₂.cons (partEvol_trans hx hy) (ih ht hu)

theorem forall2_set : ∀ {l : List RocketPart} {i : Nat} {q x : RocketPart},
    l[i]? = some q → partEvol x q → List.Forall₂ partEvol (l.set i x) l := by
  intro l
  induction l with
  | nil => intro i q x h _; simp at h
  | cons a t ih =>
    intro i q x h hx
    cases i with
    | zero =>
      simp only [List.getElem?_cons_zero, Option.some.injEq] at h
      rw [List.set_cons_zero]
      exact List.Forall₂.cons (h ▸ hx) (evol_refl t)
    | succ n =>
      simp only [List.getElem?_cons_succ] at h
      rw [List.set_cons_succ]
      exact List.Forall₂.cons (partEvol_refl a) (ih h hx)

theorem setThrusting_evol (parts : List RocketPart) (i : Nat) (b : Bool) :
    List.Forall₂ partEvol (setThrusting parts i b) parts := by
  rw [setThrusting]
  cases h : parts[i]? with
  | none => exact evol_refl parts
  | some q => exact forall2_set h (partEvol_flag q b)

theorem applyFuelUpdates_evol {updates : List (String × ℚ)} :
    ∀ {parts : List RocketPart},
    (∀ e ∈ updates, ∀ p2 ∈ parts, e.1 = p2.instanceId → 0 ≤ e.2 ∧ e.2 ≤ curFuel p2) →
    List.Forall₂ partEvol (applyFuelUpdates updates parts) parts := by
  intro parts
  induction parts with
  | nil => intro _; rw [applyFuelUpdates]; exact List.Forall₂.nil
  | cons p t ih =>
    intro H
    rw [applyFuelUpdates, List.map_cons]
    refine List.Forall₂.cons ?_ (ih (fun e he p2 hp2 hid =>
      H e he p2 (List.mem_cons_of_mem _ hp2) hid))
    cases hf : updates.find? (fun u => decide (u.1 = p.instanceId)) with
    | none => exact partEvol_refl p
    | some u =>
      have hu : u ∈ updates := List.mem_of_find?_eq_some hf
      have hid : u.1 = p.instanceId := by
        have := List.find?_some hf
        simpa using this
      have hb := H u hu p (List.mem_cons_self _ _) hid
      exact ⟨rfl, rfl, rfl, rfl, rfl, rfl, rfl, rfl, rfl, rfl,
        by simpa [curFuel] using hb.2, fun _ => by simpa [curFuel] using hb.1⟩

theorem nodup_map_inj {f : RocketPart → String} : ∀ {l : List RocketPart},
    (l.map f).Nodup → ∀ {a b : RocketPart}, a ∈ l → b ∈ l → f a = f b → a = b := by
  intro l
  induction l with
  | nil => intro _ a b ha; cases ha
  | cons x t ih =>
    intro h a b ha hb hf
    rw [List.map_cons, List.nodup_cons] at h
    rcases List.mem_cons.mp ha with rfl | hat
    · rcases List.mem_cons.mp hb with rfl | hbt
      · rfl
      · exact absurd (hf ▸ List.mem_map_of_mem f hbt) h.1
    · rcases List.mem_cons.mp hb with rfl | hbt
      · exact absurd (hf ▸ List.mem_map_of_mem f hat) h.1
      · exact ih h.2 hat hbt hf

theorem drainTiers_bounds {sources : List (RocketPart × Nat)}
    (hf : ∀ x ∈ sources, 0 ≤ curFuel x.1) :
    ∀ (dists : List Nat) (remaining : ℚ) (e : String × ℚ),
      e ∈ drainTiers sources dists remaining →
      ∃ x ∈ sources, x.1.instanceId = e.1 ∧ 0 ≤ e.2 ∧ e.2 ≤ curFuel x.1 := by
  intro dists
  induction dists with
  | nil => intro remaining e he; rw [drainTiers] at he; cases he
  | cons d rest ih =>
    intro remaining e he
    rw [drainTiers] at he
    by_cases h0 : remaining ≤ 0
    · rw [if_pos h0] at he; cases he
    · rw [if_neg h0] at he
      rcases List.mem_append.mp he with he1 | he2
      · by_cases hT : 0 < groupTotalFuel (tierTanks sources d)
        · rw [if_pos hT] at he1
          rcases List.mem_map.mp he1 with ⟨t, htt, rfl⟩
          rcases mem_tierTanks htt with ⟨x, hx, rfl, _⟩
          refine ⟨x, hx, rfl, le_max_left _ _, ?_⟩
          have hfx := hf x hx
          have htk : 0 ≤ min (groupTotalFuel (tierTanks sources d)) remaining :=
            le_min (le_of_lt hT) (le_of_lt (not_le.mp h0))
          exact max_le hfx (sub_le_self _
            (mul_nonneg htk (div_nonneg hfx (le_of_lt hT))))
        · rw [if_neg hT] at he1; cases he1
      · exact ih _ e he2

theorem engineFuelSources_pos {p : RocketPart} {parts : List RocketPart} :
    ∀ x ∈ engineFuelSources p parts, 0 ≤ curFuel x.1 := by
  intro x hx
  rw [engineFuelSources] at hx
  have h6 : (1 : ℚ) / 1000000 < curFuel x.1 := by
    simpa using (List.mem_filter.mp hx).2
  linarith

theorem engineFuelSources_mem {p : RocketPart} {parts : List RocketPart}
    (hp : p ∈ parts) : ∀ x ∈ engineFuelSources p parts, x.1 ∈ parts := by
  intro x hx
  rw [engineFuelSources] at hx
  have hx2 := (List.mem_filter.mp hx).1
  obtain ⟨-, v2, -, -, -, h4⟩ := findFuelSources_spec p parts
  rcases h4 x hx2 with h | h
  · rw [h]; exact hp
  · exact h

theorem drain_updates_ok {p : RocketPart} {parts : List RocketPart}
    (hp : p ∈ parts) (hnd : (parts.map (fun q => q.instanceId)).Nodup)
    (dists : List Nat) (remaining : ℚ) :
    ∀ e ∈ drainTiers (engineFuelSources p parts) dists remaining,
      ∀ p2 ∈ parts, e.1 = p2.instanceId → 0 ≤ e.2 ∧ e.2 ≤ curFuel p2 := by
  intro e he p2 hp2 hid
  obtain ⟨x, hx, hxid, h0, hle⟩ :=
    drainTiers_bounds engineFuelSources_pos dists remaining e he
  have hx1 : x.1 ∈ parts := engineFuelSources_mem hp x hx
  have heq : x.1 = p2 := nodup_map_inj hnd hx1 hp2 (by rw [hxid, hid])
  exact ⟨h0, heq ▸ hle⟩

theorem zero_updates_ok {p : RocketPart} {parts : List RocketPart}
    (hp : p ∈ parts) (hnd : (parts.map (fun q => q.instanceId)).Nodup) :
    ∀ e ∈ (engineFuelSources p parts).map (fun s => (s.1.instanceId, (0 : ℚ))),
      ∀ p2 ∈ parts, e.1 = p2.instanceId → 0 ≤ e.2 ∧ e.2 ≤ curFuel p2 := by
  intro e he p2 hp2 hid
  rcases List.mem_map.mp he with ⟨x, hx, rfl⟩
  have hx1 : x.1 ∈ parts := engineFuelSources_mem hp x hx
  have heq : x.1 = p2 := nodup_map_inj hnd hx1 hp2 (by simpa using hid)
  exact ⟨le_refl 0, heq ▸ engineFuelSources_pos x hx⟩

theorem stepEngine_evol {dt throttle T T2 : ℚ} {parts parts2 : List RocketPart}
    {i : Nat} (hnd : (parts.map (fun q => q.instanceId)).Nodup)
    (h : stepEngine dt throttle (parts, T) i = some (parts2, T2)) :
    List.Forall₂ partEvol parts2 parts := by
  rw [stepEngine] at h
  cases hgi : parts[i]? with
  | none =>
    simp only [hgi] at h
    simp only [Option.some.injEq, Prod.mk.injEq] at h
    obtain ⟨h1, -⟩ := h
    rw [← h1]
    exact evol_refl parts
  | some p =>
    have hp : p ∈ parts := List.getElem?_mem hgi
    simp only [hgi] at h
    by_cases htype : p.type = PartType.ENGINE
    · simp only [htype, reduceIte] at h
      cases hblk : isEngineBlockedByStage p parts with
      | none =>
        simp only [hblk] at h
        exact Option.noConfusion h
      | some b =>
        cases b with
        | true =>
          simp only [hblk] at h
          simp only [Option.some.injEq, Prod.mk.injEq] at h
          obtain ⟨h1, -⟩ := h
          rw [← h1]
          exact setThrusting_evol parts i false
        | false =>
          simp only [hblk] at h
          by_cases hmax : 0 < p.thrust.getD 0
          · rw [if_pos hmax] at h
            by_cases hc1 : p.burnRate.getD 0 * throttle * dt ≤
                engineFuelAvailable p parts ∧ 0 < p.burnRate.getD 0 * throttle * dt
            · rw [if_pos hc1] at h
              simp only [Option.some.injEq, Prod.mk.injEq] at h
              obtain ⟨h1, -⟩ := h
              rw [← h1]
              exact evol_trans (setThrusting_evol _ i true)
                (applyFuelUpdates_evol (drain_updates_ok hp hnd _ _))
            · rw [if_neg hc1] at h
              by_cases hc2 : 0 < engineFuelAvailable p parts
              · rw [if_pos hc2] at h
                simp only [Option.some.injEq, Prod.mk.injEq] at h
                obtain ⟨h1, -⟩ := h
                rw [← h1]
                exact evol_trans (setThrusting_evol _ i _)
                  (applyFuelUpdates_evol (zero_updates_ok hp hnd))
              · rw [if_neg hc2] at h
                simp only [Option.some.injEq, Prod.mk.injEq] at h
                obtain ⟨h1, -⟩ := h
                rw [← h1]
                exact setThrusting_evol parts i false
          · rw [if_neg hmax] at h
            simp only [Option.some.injEq, Prod.mk.injEq] at h
            obtain ⟨h1, -⟩ := h
            rw [← h1]
            exact evol_refl parts
    · rw [if_neg htype] at h
      simp only [Option.some.injEq, Prod.mk.injEq] at h
      obtain ⟨h1, -⟩ := h
      rw [← h1]
      exact setThrusting_evol parts i false

theorem partEvol.id_eq {q p : RocketPart} (h : partEvol q p) :
    q.instanceId = p.instanceId := h.1

theorem partEvol.cap_eq {q p : RocketPart} (h : partEvol q p) :
    q.fuelCapacity = p.fuelCapacity := h.2.2.2.2.1

theorem partEvol.fuel_le {q p : RocketPart} (h : partEvol q p) :
    curFuel q ≤ curFuel p := h.2.2.2.2.2.2.2.2.2.2.1

theorem partEvol.fuel_nonneg {q p : RocketPart} (h : partEvol q p) :
    0 ≤ curFuel p → 0 ≤ curFuel q := h.2.2.2.2.2.2.2.2.2.2.2

theorem evol_map_id : ∀ {l2 l1 : List RocketPart}, List.Forall₂ partEvol l2 l1 →
    l2.map (fun q => q.instanceId) = l1.map (fun q => q.instanceId) := by
  intro l2 l1 h
  induction h with
  | nil => rfl
  | cons hx _ ih => simp only [List.map_cons, hx.id_eq, ih]

theorem evol_sum_le : ∀ {l2 l1 : List RocketPart}, List.Forall₂ partEvol l2 l1 →
    (l2.map curFuel).sum ≤ (l1.map curFuel).sum := by
  intro l2 l1 h
  induction h with
  | nil => exact le_refl 0
  | cons hx _ ih =>
    simp only [List.map_cons, List.sum_cons]
    exact add_le_add hx.fuel_le ih

theorem evol_bounds : ∀ {l2 l1 : List RocketPart}, List.Forall₂ partEvol l2 l1 →
    (∀ p ∈ l1, 0 ≤ curFuel p ∧ curFuel p ≤ fuelCap p) →
    ∀ q ∈ l2, 0 ≤ curFuel q ∧ curFuel q ≤ fuelCap q := by
  intro l2 l1 h
  induction h with
  | nil => intro _ q hq; cases hq
  | cons hx ht ih =>
    rename_i a b t u
    intro hinv q hq
    rcases List.mem_cons.mp hq with rfl | hqt
    · have hb := hinv b (List.mem_cons_self _ _)
      refine ⟨hx.fuel_nonneg hb.1, le_trans hx.fuel_le ?_⟩
      rw [fuelCap, hx.cap_eq]
      exact hb.2
    · exact ih (fun p hp => hinv p (List.mem_cons_of_mem _ hp)) q hqt

theorem map_flag_evol (parts : List RocketPart) :
    List.Forall₂ partEvol (parts.map (fun p => { p with isThrusting := false })) parts := by
  induction parts with
  | nil => exact List.Forall₂.nil
  | cons p t ih =>
    rw [List.map_cons]
    exact List.Forall₂.cons (partEvol_flag p false) ih

theorem runEngines_evol {dt throttle : ℚ} :
    ∀ (idxs : List Nat) {parts parts2 : List RocketPart} {T T2 : ℚ},
    (parts.map (fun q => q.instanceId)).Nodup →
    runEngines dt throttle idxs (parts, T) = some (parts2, T2) →
    List.Forall₂ partEvol parts2 parts := by
  intro idxs
  induction idxs with
  | nil =>
    intro parts parts2 T T2 _ h
    rw [runEngines] at h
    simp only [Option.some.injEq, Prod.mk.injEq] at h
    obtain ⟨h1, -⟩ := h
    rw [← h1]
    exact evol_refl parts
  | cons i rest ih =>
    intro parts parts2 T T2 hnd h
    rw [runEngines] at h
    cases hs : stepEngine dt throttle (parts, T) i with
    | none =>
      simp only [hs] at h
      exact Option.noConfusion h
    | some acc2 =>
      obtain ⟨partsM, TM⟩ := acc2
      simp only [hs] at h
      have hev1 := stepEngine_evol hnd hs
      have hndM : (partsM.map (fun q => q.instanceId)).Nodup := by
        rw [evol_map_id hev1]
        exact hnd
      exact evol_trans (ih hndM h) hev1

theorem thrustPass_evol {dt throttle : ℚ} {parts parts2 : List RocketPart} {T2 : ℚ}
    (hnd : (parts.map (fun q => q.instanceId)).Nodup)
    (h : thrustPass dt throttle parts = some (parts2, T2)) :
    List.Forall₂ partEvol parts2 parts := by
  rw [thrustPass] at h
  by_cases hth : (1 : ℚ) / 1000 < throttle
  · rw [if_pos hth] at h
    exact runEngines_evol _ hnd h
  · rw [if_neg hth] at h
    simp only [Option.some.injEq, Prod.mk.injEq] at h
    obtain ⟨h1, -⟩ := h
    rw [← h1]
    exact map_flag_evol parts

theorem planetCollide_parts (st : SimState) : (planetCollide st).parts = st.parts := by
  rw [planetCollide]
  split_ifs <;> rfl

theorem moonCollide_parts (mPos : Vector2) (st : SimState) :
    (moonCollide mPos st).parts = st.parts := by
  rw [moonCollide]
  split_ifs <;> rfl

theorem substep_evol {dt : ℚ} {kl kr : Bool} {tr : ℝ} {st st2 : SimState}
    (hnd : (st.parts.map (fun q => q.instanceId)).Nodup)
    (h : substep dt kl kr tr st = some st2) :
    List.Forall₂ partEvol st2.parts st.parts := by
  rw [substep] at h
  cases htp : thrustPass dt st.throttle st.parts with
  | none =>
    simp only [htp] at h
    exact Option.noConfusion h
  | some tp =>
    obtain ⟨partsM, TM⟩ := tp
    simp only [htp] at h
    simp only [Option.some.injEq] at h
    have hparts : st2.parts = partsM := by
      rw [← h, collisionPhase, moonCollide_parts, planetCollide_parts]
    rw [hparts]
    exact thrustPass_evol hnd htp

theorem substepIter_evol {dt : ℚ} {kl kr : Bool} {tr : ℝ} :
    ∀ (n : Nat) {st st2 : SimState},
    (st.parts.map (fun q => q.instanceId)).Nodup →
    substepIter dt kl kr tr n st = some st2 →
    List.Forall₂ partEvol st2.parts st.parts := by
  intro n
  induction n with
  | zero =>
    intro st st2 _ h
    rw [substepIter] at h
    simp only [Option.some.injEq] at h
    rw [← h]
    exact evol_refl st.parts
  | succ k ih =>
    intro st st2 hnd h
    rw [substepIter] at h
    cases hs : substep dt kl kr tr st with
    | none =>
      simp only [hs] at h
      exact Option.noConfusion h
    | some stM =>
      simp only [hs] at h
      have hev1 := substep_evol hnd hs
      have hndM : (stM.parts.map (fun q => q.instanceId)).Nodup := by
        rw [evol_map_id hev1]
        exact hnd
      exact evol_trans (ih hndM h) hev1

theorem updatePhysics_evol {warp : ℚ} {kl kr : Bool} {tr : ℝ} {st st2 : SimState}
    (hnd : (st.parts.map (fun q => q.instanceId)).Nodup)
    (h : updatePhysics warp kl kr tr st = some st2) :
    List.Forall₂ partEvol st2.parts st.parts := by
  rw [updatePhysics] at h
  by_cases hg : (!st.active || st.finished) = true
  · rw [if_pos hg] at h
    simp only [Option.some.injEq] at h
    rw [← h]
    exact evol_refl st.parts
  · rw [if_neg hg] at h
    rcases Option.map_eq_some'.mp h with ⟨st3, hit, hfin⟩
    have h3 := substepIter_evol _ hnd hit
    rw [← hfin]
    exact h3

/-- C5: over any single physics update, the total `currentFuel` over the
vehicle's parts never increases, and every part's fuel stays within
`[0, fuelCapacity]` if it started there.  (The `instanceId`s are assumed
distinct, as the editor guarantees; the spec lists uniqueness as a data-model
invariant.) -/
theorem c5_fuel_conservation (warp : ℚ) (keyLeft keyRight : Bool)
    (targetRotation : ℝ) (st st2 : SimState)
    (hnd : (st.parts.map (fun q => q.instanceId)).Nodup)
    (hinv : ∀ p ∈ st.parts, 0 ≤ curFuel p ∧ curFuel p ≤ fuelCap p)
    (h : updatePhysics warp keyLeft keyRight targetRotation st = some st2) :
    (st2.parts.map curFuel).sum ≤ (st.parts.map curFuel).sum ∧
    ∀ q ∈ st2.parts, 0 ≤ curFuel q ∧ curFuel q ≤ fuelCap q := by
  have hev := updatePhysics_evol hnd h
  exact ⟨evol_sum_le hev, evol_bounds hev hinv⟩

/-- Witness for C5 at a concrete state (a finished flight, where
`updatePhysics` is the guard no-op of line 1151). -/
theorem c5_fuel_conservation_witness :
    (c5State.parts.map curFuel).sum ≤ (c5State.parts.map curFuel).sum ∧
    ∀ q ∈ c5State.parts, 0 ≤ curFuel q ∧ curFuel q ≤ fuelCap q :=
  c5_fuel_conservation 1 false false 0 c5State c5State (by decide)
    (by
      intro p hp
      rcases List.mem_singleton.mp hp with rfl
      constructor <;> norm_num [curFuel, fuelCap, c5Tank, basePart])
    rfl

/-- C9 counterexample: on a `finished` state still carrying a packed
parachute, `deployParachutes` — reachable from the `p` key and the DEPLOY
button, neither of which checks `finished` — still changes the part list and
appends to the event log. -/
theorem c9_finished_not_immutable :
    c9State.finished = true ∧
    (deployParachutes c9State).parts ≠ c9State.parts ∧
    (deployParachutes c9State).events ≠ c9State.events := by
  refine ⟨rfl, ?_, ?_⟩ <;> decide

/-- Fuel projection is unchanged by the parachute-deployment map. -/
theorem deploy_map_fuel (l : List RocketPart) :
    ((l.map (fun p =>
        if p.type = PartType.PARACHUTE ∧ p.isDeployed = false then
          { p with isDeployed := true }
        else p)).map curFuel) = l.map curFuel := by
  induction l with
  | nil => rfl
  | cons p t ih =>
    rw [List.map_cons, List.map_cons, List.map_cons, ih]
    by_cases hp : p.type = PartType.PARACHUTE ∧ p.isDeployed = false
    · rw [if_pos hp]
      rfl
    · rw [if_neg hp]

/-- C9 (amended): once `finished` is set, the physics update returns the
state unchanged and `finished` is never reset; staging and parachute
deployment never change position, velocity, rotation, the active/finished
flags, or any surviving part's fuel — but they are not disabled by
`finished`: parachute deployment can still flip `isDeployed` flags and append
to the event log, and staging can still remove parts, add debris, and append
to the event log (the counterexample exhibits the mutation). -/
theorem c9_finished_state_guards (warp : ℚ) (kl kr : Bool) (tr : ℝ)
    (st st2 : SimState) (debrisId : String) :
    (st.finished = true → updatePhysics warp kl kr tr st = some st) ∧
    ((deployParachutes st).finished = st.finished ∧
     (deployParachutes st).active = st.active ∧
     (deployParachutes st).position = st.position ∧
     (deployParachutes st).velocity = st.velocity ∧
     (deployParachutes st).rotation = st.rotation ∧
     (deployParachutes st).parts.map curFuel = st.parts.map curFuel) ∧
    (handleStage debrisId st = some st2 →
      st2.finished = st.finished ∧ st2.active = st.active ∧
      st2.position = st.position ∧ st2.velocity = st.velocity ∧
      st2.rotation = st.rotation ∧
      ∀ p ∈ st2.parts, ∃ q ∈ st.parts,
        q.instanceId = p.instanceId ∧ q.currentFuel = p.currentFuel) := by
  refine ⟨fun hfin => ?_, ⟨rfl, rfl, rfl, rfl, rfl, deploy_map_fuel st.parts⟩, fun h => ?_⟩
  · rw [updatePhysics, if_pos (by rw [hfin, Bool.or_true])]
  · rw [handleStage] at h
    cases has : assignStages st.parts with
    | none =>
      simp only [has] at h
      exact Option.noConfusion h
    | some m =>
      simp only [has] at h
      by_cases hmax : ((m.map (fun e => e.2)).foldl max 0) = 0
      · rw [if_pos hmax] at h
        simp only [Option.some.injEq] at h
        rw [← h]
        refine ⟨rfl, rfl, rfl, rfl, rfl, fun p hp => ?_⟩
        rcases List.mem_map.mp hp with ⟨q, hq, rfl⟩
        by_cases hc : q.type = PartType.PARACHUTE ∧ q.isDeployed = false
        · rw [if_pos hc]
          exact ⟨q, hq, rfl, rfl⟩
        · rw [if_neg hc]
          exact ⟨q, hq, rfl, rfl⟩
      · rw [if_neg hmax] at h
        simp only [Option.some.injEq] at h
        rw [← h]
        refine ⟨rfl, rfl, rfl, rfl, rfl, fun p hp => ?_⟩
        have := List.mem_filter.mp hp
        exact ⟨p, this.1, rfl, rfl⟩

/-- Witness for C9 (amended): the physics update leaves the finished
counterexample state untouched. -/
theorem c9_finished_state_guards_witness :
    updatePhysics 1 false false 0 c9State = some c9State :=
  (c9_finished_state_guards 1 false false 0 c9State c9State "d").1 rfl

end RocketSim
